import Mathlib

/-!
Verification development for the unit-nest test engine
(src/lib/private/executers/test-case.executer.ts, the suite executer,
builders and the auto-mock resolver), as a shallow embedding.

JavaScript values are modelled by the inductive `Val`; a call of a
method produces a `CallResult` (plain return, promise-like, or a
synchronous throw); jest assertion errors and thrown errors are
`JsError`; a test case resolves to an `Outcome` (pass, or fail with the
error that escaped the `it` callback).  Mutable instance methods and
module exports live in a `World`, updated functionally.
-/

/-- Model of a JavaScript value as far as the engine observes it. -/
inductive Val where
  | undef
  | boolV (b : Bool)
  | num (n : Int)
  | str (s : String)
  | errObj (msg : String)
  deriving DecidableEq, Repr

/-- A promise-like: it either resolves to a value or rejects with one. -/
inductive PromiseVal where
  | resolves (v : Val)
  | rejects (e : Val)
  deriving DecidableEq, Repr

/-- Result of invoking a method: a plain (non promise-like) return value,
a promise-like, or a synchronous throw.  The source distinguishes these
by `result && typeof result.then === 'function'` and try/catch. -/
inductive CallResult where
  | ret (v : Val)
  | promiseR (r : PromiseVal)
  | thrownE (e : Val)
  deriving DecidableEq, Repr

/-- The actual operand handed to `expect(...).toEqual`: either a plain
value, or a pending promise object (when an async result is compared
without awaiting). -/
inductive ActualV where
  | plainV (v : Val)
  | promiseObj (r : PromiseVal)
  deriving DecidableEq, Repr

/-- Errors that can escape the case body: user-thrown values, the jest
assertion errors raised by `expect`, the engine-built `Error` objects,
and runtime type errors. -/
inductive JsError where
  | userErr (e : Val)
  | expectedThrowButValue
  | rejectsResolved (v : Val)
  | assertMismatch (actual : ActualV) (expected : Val)
  | toThrowFailed
  | unexpectedError (inner : JsError)
  | typeErrorInOnUndefined
  | cannotRedefine (pid : Nat) (m : String)
  deriving DecidableEq, Repr

/-- Outcome of a test case as the host runner sees it: the `it` callback
returned normally (pass) or threw (fail with the escaping error). -/
inductive Outcome where
  | pass
  | fail (e : JsError)
  deriving DecidableEq, Repr

/-- The expectation union of the source: `{expected, isAsync:false}`,
`{expected, isAsync:true}` or `{error}`. -/
inductive Expectation where
  | value (expected : Val)
  | asyncValue (expected : Val)
  | errorE (e : Val)
  deriving DecidableEq, Repr

/-- The behaviour installed on a mock: the four `returnType` kinds of the
configuration union.  A user `implementation` is modelled by its
observable call outcome. -/
inductive Behavior where
  | retValue (v : Val)
  | resolvedValue (v : Val)
  | throwError (e : Val)
  | implC (r : CallResult)
  deriving DecidableEq, Repr

/-- Calling a behaviour: `mockReturnValue` returns the value,
`mockResolvedValue` returns a promise resolving to it,
the `error` kind throws synchronously, an implementation runs itself. -/
def invokeBehavior : Behavior → CallResult
  | .retValue v => .ret v
  | .resolvedValue v => .promiseR (.resolves v)
  | .throwError e => .thrownE e
  | .implC r => r

/-- State of one jest spy: the original method (written back by
`mockRestore`), the queue of one-time behaviours installed by the
`...Once` configurators, and the steady default installed by the
non-`Once` configurators. -/
structure SpyState where
  original : Behavior
  onceQueue : List Behavior
  defaultImpl : Option Behavior
  deriving DecidableEq, Repr

/-- A method slot on an instance: either the plain original method, or a
jest spy standing in for it. -/
inductive Slot where
  | plainSlot (b : Behavior)
  | spiedSlot (s : SpyState)
  deriving DecidableEq, Repr

/-- A module export slot: the original exported function, or the mock
function a `jest.spyOn(originalModule, method)` put in its place. -/
inductive ModSlotVal where
  | originalFn (b : Behavior)
  | mockFn (s : SpyState)
  deriving DecidableEq, Repr

/-- The mutable world: provider-instance method slots (indexed by the
provider instance identity and the method name), module export slots
(indexed by module name and export name), and whether a property has
been made non-configurable (which makes `mockRestore` throw). -/
structure World where
  prov : Nat → String → Slot
  modf : String → String → ModSlotVal
  frozen : Nat → String → Bool

/-- Functional update of one provider method slot. -/
def World.setProv (w : World) (p : Nat) (m : String) (s : Slot) : World :=
  { w with prov := fun p2 m2 => if p2 = p ∧ m2 = m then s else w.prov p2 m2 }

/-- Functional update of one module export slot. -/
def World.setModf (w : World) (mo : String) (fn : String) (v : ModSlotVal) : World :=
  { w with modf := fun mo2 fn2 => if mo2 = mo ∧ fn2 = fn then v else w.modf mo2 fn2 }

/-- One call through a jest spy: the head of the once-queue is consumed
first; an exhausted queue falls back to the steady default when one was
installed, otherwise to the original method the spy wraps
(jest `spyOn` keeps calling the original while unconfigured). -/
def spyInvoke (s : SpyState) : CallResult × SpyState :=
  match s.onceQueue with
  | b :: rest => (invokeBehavior b, { s with onceQueue := rest })
  | [] =>
    match s.defaultImpl with
    | some b => (invokeBehavior b, s)
    | none => (invokeBehavior s.original, s)

/-- Invoking a provider method in the world: a plain slot runs the
original behaviour, a spied slot dispatches through the spy and stores
the consumed queue back. -/
def callMethod (w : World) (p : Nat) (m : String) : CallResult × World :=
  match w.prov p m with
  | .plainSlot b => (invokeBehavior b, w)
  | .spiedSlot s =>
    let (r, s2) := spyInvoke s
    (r, w.setProv p m (.spiedSlot s2))

/-- A provider reference: identity of the class object, its `name`
property, and its `toString()` rendering (used when `name` is falsy). -/
structure ProviderRef where
  pid : Nat
  name : String
  asString : String
  deriving DecidableEq, Repr

/-- The `returnType` tagged union shared by the three configuration
flavours: `value`, `asyncValue`, `error`, `implementation`. -/
inductive MockBehaviorSpec where
  | value (v : Val)
  | asyncValue (v : Val)
  | errorK (e : Val)
  | implementationK (r : CallResult)
  deriving DecidableEq, Repr

/-- A collaborator mock configuration `{provider, method, returnType, payload}`. -/
structure MockConfig where
  provider : ProviderRef
  method : String
  spec : MockBehaviorSpec
  deriving DecidableEq, Repr

/-- A module mock configuration `{moduleName, method, returnType, payload}`. -/
structure ModuleMockConfig where
  moduleName : String
  method : String
  spec : MockBehaviorSpec
  deriving DecidableEq, Repr

/-- A self-spy configuration `{method, returnType, payload}`. -/
structure SelfSpyConfig where
  method : String
  spec : MockBehaviorSpec
  deriving DecidableEq, Repr

/-- A test case as stored by the builder.  The expectation is optional
because the builder field `testExpectation!` is definitely-assigned only
by the `expect...` methods; a chain that never calls one leaves it
`undefined`. -/
structure TestCase where
  description : String
  args : List Val
  mocks : List MockConfig
  moduleMocks : List ModuleMockConfig
  expectation : Option Expectation
  spies : List SelfSpyConfig
  deriving Repr

/-- The `switch (mock.returnType)` over the `...Once` configurators:
each case appends one behaviour to the once-queue of the spy. -/
def applyOnceSwitch (spy : SpyState) (spec : MockBehaviorSpec) : SpyState :=
  match spec with
  | .value v => { spy with onceQueue := spy.onceQueue ++ [.retValue v] }
  | .asyncValue v => { spy with onceQueue := spy.onceQueue ++ [.resolvedValue v] }
  | .errorK e => { spy with onceQueue := spy.onceQueue ++ [.throwError e] }
  | .implementationK r => { spy with onceQueue := spy.onceQueue ++ [.implC r] }

/-- The `switch (mock.returnType)` over the non-`Once` configurators:
each case installs the steady default behaviour of the spy. -/
def applyDefaultSwitch (spy : SpyState) (spec : MockBehaviorSpec) : SpyState :=
  match spec with
  | .value v => { spy with defaultImpl := some (.retValue v) }
  | .asyncValue v => { spy with defaultImpl := some (.resolvedValue v) }
  | .errorK e => { spy with defaultImpl := some (.throwError e) }
  | .implementationK r => { spy with defaultImpl := some (.implC r) }

/-- `jest.spyOn` on a method slot: a plain method is wrapped in a fresh
spy remembering it as the original; a slot that already holds a mock
function is returned as-is (jest does not stack spies). -/
def spyOnSlot : Slot → SpyState
  | .plainSlot b => { original := b, onceQueue := [], defaultImpl := none }
  | .spiedSlot s => s

/-- The grouping key of `applyMocks`:
`(mock.provider.name || mock.provider.toString()) + "." + mock.method`
(an empty `name` is falsy, so the `toString` rendering is used). -/
def mockKey (mk : MockConfig) : String :=
  (if mk.provider.name = "" then mk.provider.asString else mk.provider.name)
    ++ "." ++ mk.method

/-- The keys of the `mockGroups` map in first-insertion order
(a JavaScript `Map` iterates keys in insertion order). -/
def groupKeys (mocks : List MockConfig) : List String :=
  mocks.foldl (fun ks mk => if mockKey mk ∈ ks then ks else ks ++ [mockKey mk]) []

/-- The entries pushed under one key of `mockGroups`, in push order. -/
def groupFor (mocks : List MockConfig) (k : String) : List MockConfig :=
  mocks.filter (fun mk => mockKey mk = k)

/-- Applying one group of `applyMocks`: the spy is created on the
instance of the group head (`testingModule.get(firstMock.provider)`);
a group of two or more entries installs each through the `...Once`
switch; a singleton group installs the steady default.  Returns the
handle pushed onto `mockInstances`. -/
def applyGroup (w : World) (mocks : List MockConfig) (k : String) :
    (Nat × String) × World :=
  match groupFor mocks k with
  | [] => ((0, ""), w)
  | firstMock :: restGrp =>
    let pid := firstMock.provider.pid
    let m := firstMock.method
    let spy0 := spyOnSlot (w.prov pid m)
    let spy1 :=
      if (firstMock :: restGrp).length > 1 then
        (firstMock :: restGrp).foldl (fun sp mk => applyOnceSwitch sp mk.spec) spy0
      else
        applyDefaultSwitch spy0 firstMock.spec
    ((pid, m), w.setProv pid m (.spiedSlot spy1))

/-- Recursion of `applyMocks` over the group keys in insertion order. -/
def applyMocksGo (w : World) (mocks : List MockConfig) :
    List String → List (Nat × String) × World
  | [] => ([], w)
  | k :: rest =>
    let (h, w1) := applyGroup w mocks k
    let (hs, w2) := applyMocksGo w1 mocks rest
    (h :: hs, w2)

/-- `TestCaseExecuter.applyMocks`: group the configurations by the name
key, then spy and configure each group, collecting the spy handles. -/
def applyMocks (w : World) (mocks : List MockConfig) :
    List (Nat × String) × World :=
  applyMocksGo w mocks (groupKeys mocks)

/-- Grouping key of `applySelfSpies`: the method name alone. -/
def selfSpyKey (sc : SelfSpyConfig) : String := sc.method

/-- The keys of the self-spy groups in first-insertion order. -/
def selfSpyGroupKeys (spies : List SelfSpyConfig) : List String :=
  spies.foldl (fun ks sc => if selfSpyKey sc ∈ ks then ks else ks ++ [selfSpyKey sc]) []

/-- The entries of one self-spy group, in push order. -/
def selfSpyGroupFor (spies : List SelfSpyConfig) (k : String) : List SelfSpyConfig :=
  spies.filter (fun sc => selfSpyKey sc = k)

/-- Applying one self-spy group on the CUT instance; same structure as
`applyGroup`. -/
def applySelfSpyGroup (w : World) (cutPid : Nat) (spies : List SelfSpyConfig)
    (k : String) : (Nat × String) × World :=
  match selfSpyGroupFor spies k with
  | [] => ((0, ""), w)
  | firstSpy :: restGrp =>
    let m := firstSpy.method
    let spy0 := spyOnSlot (w.prov cutPid m)
    let spy1 :=
      if (firstSpy :: restGrp).length > 1 then
        (firstSpy :: restGrp).foldl (fun sp sc => applyOnceSwitch sp sc.spec) spy0
      else
        applyDefaultSwitch spy0 firstSpy.spec
    ((cutPid, m), w.setProv cutPid m (.spiedSlot spy1))

/-- Recursion of `applySelfSpies` over its group keys. -/
def applySelfSpiesGo (w : World) (cutPid : Nat) (spies : List SelfSpyConfig) :
    List String → List (Nat × String) × World
  | [] => ([], w)
  | k :: rest =>
    let (h, w1) := applySelfSpyGroup w cutPid spies k
    let (hs, w2) := applySelfSpiesGo w1 cutPid spies rest
    (h :: hs, w2)

/-- `TestCaseExecuter.applySelfSpies`. -/
def applySelfSpies (w : World) (cutPid : Nat) (spies : List SelfSpyConfig) :
    List (Nat × String) × World :=
  applySelfSpiesGo w cutPid spies (selfSpyGroupKeys spies)

/-- One restore closure of `applyModuleMocks`: the spy handle key and the
captured `originalMethod` reference
(`const originalMethod = originalModule[mock.method]`, taken before
`jest.spyOn`). -/
structure ModRestoreFn where
  key : String × String
  captured : ModSlotVal
  deriving DecidableEq, Repr

/-- `TestCaseExecuter.applyModuleMocks`: per configuration (there is no
grouping here), capture the current export, spy on it (an export that is
already a mock function is reused as-is), install the steady behaviour
through the non-`Once` switch, and push a restore closure. -/
def applyModuleMocksGo (w : World) :
    List ModuleMockConfig → List ModRestoreFn × World
  | [] => ([], w)
  | mk :: rest =>
    let captured := w.modf mk.moduleName mk.method
    let spy0 :=
      match w.modf mk.moduleName mk.method with
      | .originalFn b => SpyState.mk b [] none
      | .mockFn s => s
    let spy1 := applyDefaultSwitch spy0 mk.spec
    let w1 := w.setModf mk.moduleName mk.method (.mockFn spy1)
    let (rs, w2) := applyModuleMocksGo w1 rest
    ({ key := (mk.moduleName, mk.method), captured := captured } :: rs, w2)

/-- The state change of a successful `mockRestore` on a provider spy
handle: write the remembered original method back over the slot (a no-op
when the slot was already restored). -/
def mockRestoreStep (w : World) (h : Nat × String) : World :=
  match w.prov h.1 h.2 with
  | .spiedSlot s => w.setProv h.1 h.2 (.plainSlot s.original)
  | .plainSlot _ => w

/-- `mockRestore` on a provider spy handle.  Reassigning a property made
non-configurable throws a `TypeError`, modelled by the `frozen` flag. -/
def mockRestoreE (w : World) (h : Nat × String) : Except (JsError × World) World :=
  if w.frozen h.1 h.2 then
    .error (.cannotRedefine h.1 h.2, w)
  else
    .ok (mockRestoreStep w h)

/-- `TestCaseExecuter.restoreMocks`:
`mockInstances.forEach(mock => mock.mockRestore())` — the restores run in
order, and an exception aborts the remaining iterations of `forEach`. -/
def restoreMocksE (hs : List (Nat × String)) (w : World) :
    Except (JsError × World) World :=
  match hs with
  | [] => .ok w
  | h :: rest =>
    match mockRestoreE w h with
    | .ok w1 => restoreMocksE rest w1
    | .error e => .error e

/-- `TestCaseExecuter.restoreSpies`: identical body to `restoreMocks`,
over the self-spy handles. -/
def restoreSpiesE (hs : List (Nat × String)) (w : World) :
    Except (JsError × World) World :=
  restoreMocksE hs w

/-- One module restore closure:
`spy.mockRestore(); originalModule[mock.method] = originalMethod` —
the spy writes its remembered original back, then the captured reference
is assigned over it. -/
def moduleRestoreStep (w : World) (r : ModRestoreFn) : World :=
  let w1 :=
    match w.modf r.key.1 r.key.2 with
    | .mockFn s => w.setModf r.key.1 r.key.2 (.originalFn s.original)
    | .originalFn _ => w
  w1.setModf r.key.1 r.key.2 r.captured

/-- `TestCaseExecuter.restoreModuleMocks`: `restoreFns.forEach(fn => fn())`. -/
def restoreModuleMocksE (rs : List ModRestoreFn) (w : World) : World :=
  rs.foldl moduleRestoreStep w

/-- The apply phase of `executeCase`: collaborator mocks, then module
mocks, then self-spies, collecting the three batches of handles. -/
def applyPhase (tc : TestCase) (cutPid : Nat) (w : World) :
    List (Nat × String) × List ModRestoreFn × List (Nat × String) × World :=
  let mockInstances := applyMocks w tc.mocks
  let moduleRestoreFns := applyModuleMocksGo mockInstances.2 tc.moduleMocks
  let spyInstances := applySelfSpies moduleRestoreFns.2 cutPid tc.spies
  (mockInstances.1, moduleRestoreFns.1, spyInstances.1, spyInstances.2)

/-- `expect(() => { throw error; }).toThrow()` of the catch block: the
callback always throws the caught error, so the assertion passes. -/
def expectFnToThrow (thrownVal : Option JsError) : Outcome :=
  match thrownVal with
  | some _ => .pass
  | none => .fail .toThrowFailed

/-- The `'error' in expectation` branch of `executeCase`.  Inside the
try: a promise-like is awaited under `expect(result).rejects.toThrow()`
(which throws a jest assertion error when the promise resolves), a plain
return value raises
`new Error("Expected method to throw an error, but it returned a value")`,
and a synchronous throw escapes directly.  Every one of those errors
lands in the catch, whose `toThrow` assertion passes because the wrapped
callback rethrows it. -/
def errorBranch (res : CallResult) : Outcome :=
  let tryRes : Except JsError Unit :=
    match res with
    | .thrownE e => .error (.userErr e)
    | .promiseR (.rejects _) => .ok ()
    | .promiseR (.resolves v) => .error (.rejectsResolved v)
    | .ret _ => .error .expectedThrowButValue
  match tryRes with
  | .ok _ => .pass
  | .error e => expectFnToThrow (some e)

/-- `toEqual` deep equality as the engine observes it: plain values are
compared structurally, a pending promise object never equals an expected
plain value. -/
def toEqualPasses (actual : ActualV) (expected : Val) : Bool :=
  match actual with
  | .plainV v => v = expected
  | .promiseObj _ => false

/-- `expect(result).toEqual(expectation.expected)`: passes or throws a
jest assertion error. -/
def toEqualCheck (actual : ActualV) (expected : Val) : Except JsError Unit :=
  if toEqualPasses actual expected then .ok () else .error (.assertMismatch actual expected)

/-- The value-expectation branch of `executeCase`: invoke, await when
`isAsync`, compare with `toEqual`; any error thrown inside the try
(a sync throw, an awaited rejection, or the `toEqual` assertion error
itself) is caught and rethrown as
`new Error("Unexpected error: " + error)`. -/
def valueBranch (res : CallResult) (isAsync : Bool) (expected : Val) : Outcome :=
  let tryRes : Except JsError Unit :=
    match res with
    | .thrownE e => .error (.userErr e)
    | .ret v => toEqualCheck (.plainV v) expected
    | .promiseR p =>
      if isAsync then
        match p with
        | .resolves v => toEqualCheck (.plainV v) expected
        | .rejects e => .error (.userErr e)
      else
        toEqualCheck (.promiseObj p) expected
  match tryRes with
  | .ok _ => .pass
  | .error e => .fail (.unexpectedError e)

/-- The try body of `executeCase`: the check `'error' in expectation`
throws a `TypeError` when the expectation was never assigned (it is
`undefined`); otherwise the branch chosen by the expectation shape runs
over the result of the bound method. -/
def caseBody (boundMethod : World → CallResult × World)
    (expectation : Option Expectation) (w : World) : Outcome × World :=
  match expectation with
  | none => (.fail .typeErrorInOnUndefined, w)
  | some exp =>
    let (res, w1) := boundMethod w
    match exp with
    | .errorE _ => (errorBranch res, w1)
    | .value expected => (valueBranch res false expected, w1)
    | .asyncValue expected => (valueBranch res true expected, w1)

/-- `TestCaseExecuter.executeCase`: apply mocks, module mocks and
self-spies, run the body, then the finally block restores the three
batches in order.  An exception thrown while restoring aborts the rest of
the finally block and replaces the outcome of the case. -/
def executeCase (boundMethod : World → CallResult × World) (tc : TestCase)
    (cutPid : Nat) (w : World) : Outcome × World :=
  let ap := applyPhase tc cutPid w
  let body := caseBody boundMethod tc.expectation ap.2.2.2
  match restoreMocksE ap.1 body.2 with
  | .error (e, w5) => (.fail e, w5)
  | .ok w5 =>
    let w6 := restoreModuleMocksE ap.2.1 w5
    match restoreSpiesE ap.2.2.1 w6 with
    | .error (e, w7) => (.fail e, w7)
    | .ok w7 => (body.1, w7)

/-!
The fluent `CaseBuilder` (src/lib/public/builders/case.builder.ts, the
revision with module mocks): the builder starts with empty mock, module
mock and spy arrays, and its `testExpectation` field is only assigned by
`expectReturn`, `expectAsync` or `expectThrow`.
-/

/-- The mutable state of a `CaseBuilder` chain. -/
structure CaseBuilderState where
  description : String
  testArgs : List Val
  testMocks : List MockConfig
  testModuleMocks : List ModuleMockConfig
  testExpectation : Option Expectation
  testSpies : List SelfSpyConfig

/-- The `CaseBuilder` constructor: mock, module mock and spy arrays start
empty; args and expectation are definitely-assigned fields that hold
`undefined` until a builder method assigns them. -/
def CaseBuilderState.new (description : String) : CaseBuilderState :=
  { description := description, testArgs := [], testMocks := [],
    testModuleMocks := [], testExpectation := none, testSpies := [] }

/-- `CaseBuilder.mockReturnValue`. -/
def CaseBuilderState.mockReturnValue (st : CaseBuilderState) (provider : ProviderRef)
    (method : String) (returnValue : Val) : CaseBuilderState :=
  { st with testMocks := st.testMocks ++
      [{ provider := provider, method := method, spec := .value returnValue }] }

/-- `CaseBuilder.args`. -/
def CaseBuilderState.args (st : CaseBuilderState) (a : List Val) : CaseBuilderState :=
  { st with testArgs := a }

/-- `CaseBuilder.expectReturn`. -/
def CaseBuilderState.expectReturn (st : CaseBuilderState) (expectedReturn : Val) :
    CaseBuilderState :=
  { st with testExpectation := some (.value expectedReturn) }

/-- `CaseBuilder.expectAsync`. -/
def CaseBuilderState.expectAsync (st : CaseBuilderState) (expectedReturn : Val) :
    CaseBuilderState :=
  { st with testExpectation := some (.asyncValue expectedReturn) }

/-- `CaseBuilder.expectThrow`. -/
def CaseBuilderState.expectThrow (st : CaseBuilderState) (e : Val) : CaseBuilderState :=
  { st with testExpectation := some (.errorE e) }

/-- The private `case` getter used by `doneCase`: packages the
accumulated fields into a `TestCase`. -/
def CaseBuilderState.doneCase (st : CaseBuilderState) : TestCase :=
  { description := st.description, args := st.testArgs, mocks := st.testMocks,
    moduleMocks := st.testModuleMocks, expectation := st.testExpectation,
    spies := st.testSpies }

/-!
The suite executer (`TestSuiteExecuter.executeSuite`): it opens a
`describe` block for the method, registers one `beforeAll` hook that
compiles the testing module and reads the CUT instance, and registers one
`it` per case, in declaration order.  The host runner then executes the
hook once before the first test, threads the shared scope through the
tests, records each test outcome, and keeps running after a failure.
The scope type and the per-case executor are parameters, as in the
source, where the scope is the compiled `TestingModule` plus CUT
instance and the executor is the delegated `TestCaseExecuter`.
-/

/-- A suite as stored by the builder: a method name and the cases in
declaration order.  The case payload type is abstract. -/
structure TestSuiteG (TC : Type) where
  method : String
  cases : List (String × TC)

/-- A registered `describe` block: the `beforeAll` hooks and the
registered tests, each a description plus a body over the shared scope. -/
structure DescribeBlock (Scope : Type) where
  name : String
  beforeAllHooks : List (Unit → Scope)
  tests : List (String × (Scope → Outcome × Scope))

/-- `TestSuiteExecuter.executeSuite`: registers the `describe` block —
one `beforeAll` hook compiling the testing module, then one `it` per
case in declaration order, each delegating to the case executor. -/
def executeSuiteR {Scope TC : Type} (compile : Unit → Scope)
    (caseExec : TC → Scope → Outcome × Scope) (suite : TestSuiteG TC) :
    DescribeBlock Scope :=
  { name := suite.method,
    beforeAllHooks := [fun _ => compile ()],
    tests := suite.cases.map (fun c => (c.1, caseExec c.2)) }

/-- The host runner over the registered tests of one block: each test
body runs on the scope left by the previous one; a failing outcome is
recorded and the runner continues with the next test. -/
def runTests {Scope : Type} (tests : List (String × (Scope → Outcome × Scope)))
    (scope : Scope) : List (String × Outcome) × Scope :=
  match tests with
  | [] => ([], scope)
  | (d, body) :: rest =>
    let (o, scope1) := body scope
    let (os, scope2) := runTests rest scope1
    ((d, o) :: os, scope2)

/-- The scope each registered test starts from: the compiled scope for
the first test, then whatever the previous test body left behind. -/
def scopesAlong {Scope : Type} (tests : List (String × (Scope → Outcome × Scope)))
    (scope : Scope) : List Scope :=
  match tests with
  | [] => []
  | (_, body) :: rest => scope :: scopesAlong rest (body scope).2

/-- The host runner over one `describe` block: the `beforeAll` hooks run
once, before the first test, producing the shared scope; then the tests
run in registration order. -/
def runDescribe {Scope : Type} (d : DescribeBlock Scope) (initial : Scope) :
    List (String × Outcome) × Scope :=
  let scope := d.beforeAllHooks.foldl (fun _ h => h ()) initial
  runTests d.tests scope

/-- The host runner over several registered suites: each `describe`
block is executed independently, in order. -/
def runDescribes {Scope : Type} (ds : List (DescribeBlock Scope)) (initial : Scope) :
    List (List (String × Outcome)) :=
  ds.map (fun d => (runDescribe d initial).1)

/-!
The auto-mock resolver (`AutoMockResolver`, revision with recursive
dependency discovery) and the `TestsBuilder` constructor that invokes it.
Classes are identified by a numeric identity; the `design:paramtypes`
reflection metadata of a class is recorded in a class environment.
-/

/-- Whether the second character sequence occurs as a contiguous run
inside the first: the `String.prototype.includes` check. -/
def charSeqContains (needle : List Char) : List Char → Bool
  | [] => needle.isEmpty
  | c :: rest => needle.isPrefixOf (c :: rest) || charSeqContains needle rest

/-- `hay.includes(needle)` of JavaScript strings. -/
def strIncludes (hay needle : String) : Bool :=
  charSeqContains needle.toList hay.toList

/-- One constructor parameter type from `design:paramtypes`: a class
constructor, or a primitive/built-in (String, Number, Boolean, Object,
Array, Function, Date, or a prototype-less value) that
`extractConstructorDependencies` filters out.  String and symbol tokens
never occur in `design:paramtypes` and are covered by `primT`. -/
inductive ParamType where
  | cls (cid : Nat)
  | primT
  deriving DecidableEq, Repr

/-- Reflection data of one class: its `name`, its `toString()` rendering
(the source text of the class, which always contains the name), its
constructor parameter types, and its own function-valued prototype
property names (as returned by `Object.getOwnPropertyNames` filtered to
functions; this includes `constructor`). -/
structure ClassInfo where
  name : String
  srcText : String
  paramtypes : List ParamType
  methods : List String
  deriving DecidableEq, Repr

/-- The class environment: identity to reflection data. -/
abbrev ClassEnv : Type := List (Nat × ClassInfo)

/-- Metadata lookup. -/
def lookupClass (env : ClassEnv) (cid : Nat) : Option ClassInfo :=
  (env.find? (fun e => e.1 = cid)).map (fun e => e.2)

/-- `AutoMockResolver.extractConstructorDependencies`: the class
parameters of `design:paramtypes`, primitives and built-ins skipped;
missing metadata yields the empty list (the try/catch fallback). -/
def extractConstructorDependencies (env : ClassEnv) (cid : Nat) : List Nat :=
  match lookupClass env cid with
  | none => []
  | some ci => ci.paramtypes.filterMap (fun pt =>
      match pt with
      | .cls c => some c
      | .primT => none)

/-- `AutoMockResolver.isConfigService`: the provider is recognised when
its `name` is exactly `ConfigService`, or its prototype constructor name
is (for a class the constructor is the class itself, so this repeats the
first check), or its `toString()` rendering CONTAINS the substring
`ConfigService` — so a class named, say, `MyConfigService` is also
recognised. -/
def isConfigService (env : ClassEnv) (cid : Nat) : Bool :=
  match lookupClass env cid with
  | some ci => ci.name = "ConfigService" || strIncludes ci.srcText "ConfigService"
  | none => false

/-- The worklist loop of `createAutoMocks`: pop a provider off the end of
`providersToProcess`, skip it when already processed, otherwise record it
and walk its constructor dependencies — a dependency recognised as
ConfigService is recorded without expansion, any other unprocessed class
dependency is pushed.  The fuel argument only bounds the recursion. -/
def collectLoop (env : ClassEnv) : Nat → List Nat → List Nat → List Nat
  | 0, _, processed => processed
  | fuel + 1, toProcess, processed =>
    match toProcess.getLast? with
    | none => processed
    | some p =>
      let rest := toProcess.dropLast
      if p ∈ processed then
        collectLoop env fuel rest processed
      else
        let processed1 := processed ++ [p]
        let st := (extractConstructorDependencies env p).foldl
          (fun (acc : List Nat × List Nat) d =>
            if d ∈ acc.1 then acc
            else if isConfigService env d then (acc.1 ++ [d], acc.2)
            else (acc.1, acc.2 ++ [d]))
          (processed1, rest)
        collectLoop env fuel st.2 st.1

/-- A stub method installed on an auto-generated mock object: a plain
`jest.fn()` (returns `undefined`), or one of the three bespoke
ConfigService mock methods. -/
inductive StubFn where
  | jestFn
  | csGet
  | csGetOrThrow
  | csHas
  deriving DecidableEq, Repr

/-- An auto-generated mock object: method name to stub. -/
abbrev MockObj : Type := List (String × StubFn)

/-- `AutoMockResolver.getMethodNames`: the function-valued own prototype
property names. -/
def getMethodNames (env : ClassEnv) (cid : Nat) : List String :=
  match lookupClass env cid with
  | some ci => ci.methods
  | none => []

/-- `AutoMockResolver.createMockObject`: every own prototype method other
than `constructor` becomes a `jest.fn()`. -/
def createMockObject (env : ClassEnv) (cid : Nat) : MockObj :=
  ((getMethodNames env cid).filter (fun m => ¬ (m = "constructor"))).map
    (fun m => (m, StubFn.jestFn))

/-- `AutoMockResolver.createConfigServiceMock`. -/
def createConfigServiceMock : MockObj :=
  [("get", .csGet), ("getOrThrow", .csGetOrThrow), ("has", .csHas)]

/-- Calling a stub method: `jest.fn()` returns `undefined`; the
ConfigService mock `get` returns the supplied default (or `undefined`),
`getOrThrow` throws, `has` returns `false`. -/
def stubCall (f : StubFn) (args : List Val) : CallResult :=
  match f with
  | .jestFn => .ret .undef
  | .csGet =>
    .ret (match args.get? 1 with
      | some dv => if dv = .undef then .undef else dv
      | none => .undef)
  | .csGetOrThrow =>
    .thrownE (.errObj ("Configuration key " ++
      (match args.get? 0 with
        | some (.str s) => s
        | _ => "") ++ " not found"))
  | .csHas => .ret (.boolV false)

/-- Accumulator of the second phase of `createAutoMocks`. -/
structure AutoMocksAcc where
  autoMocks : List (Nat × MockObj)
  configServiceFound : Bool
  configServiceProvider : Option Nat

/-- The `allProviders` array of `createAutoMocks`: the CUT (when given)
followed by the explicitly provided class providers. -/
def allProvidersOf (cut : Option Nat) (providedProviders : List Nat) : List Nat :=
  match cut with
  | some c => c :: providedProviders
  | none => providedProviders

/-- The phase-two step of `createAutoMocks` over one processed provider:
a ConfigService class sets the flag and is skipped, an explicitly
provided class is skipped, and any other discovered class gets a
`{provide, useValue}` stub appended. -/
def autoMockStep (env : ClassEnv) (providedSet : List Nat)
    (a : AutoMocksAcc) (p : Nat) : AutoMocksAcc :=
  if isConfigService env p then
    { a with configServiceFound := true, configServiceProvider := some p }
  else if p ∈ providedSet then a
  else { a with autoMocks := a.autoMocks ++ [(p, createMockObject env p)] }

/-- `AutoMockResolver.createAutoMocks` (recursive revision): discover the
transitive class dependencies of the CUT and the explicit providers,
then emit one `{provide, useValue}` stub per discovered class that was
not explicitly provided — except classes recognised as ConfigService,
which get the bespoke ConfigService mock appended at the end. -/
def createAutoMocks (env : ClassEnv) (providedProviders : List Nat)
    (cut : Option Nat) (fuel : Nat) : List (Nat × MockObj) :=
  let allProviders := allProvidersOf cut providedProviders
  let processed := collectLoop env fuel allProviders []
  let acc := processed.foldl (autoMockStep env allProviders) ⟨[], false, none⟩
  match acc.configServiceFound, acc.configServiceProvider with
  | true, some cs => acc.autoMocks ++ [(cs, createConfigServiceMock)]
  | _, _ => acc.autoMocks

/-- A provider entry of the compiled testing module: a real class
registration, or an auto-mock `{provide, useValue}` stub. -/
inductive CompiledEntry where
  | realClass (cid : Nat)
  | stubObj (cid : Nat) (obj : MockObj)
  deriving DecidableEq, Repr

/-- The identity a compiled entry is registered under. -/
def CompiledEntry.provide : CompiledEntry → Nat
  | .realClass cid => cid
  | .stubObj cid _ => cid

/-- The provider list the `TestsBuilder` constructor assembles and the
suite executer compiles: the CUT, the explicitly supplied providers, and
the auto-mocks appended after them. -/
def testsBuilderEntries (env : ClassEnv) (cut : Nat) (providers : List Nat)
    (fuel : Nat) : List CompiledEntry :=
  [CompiledEntry.realClass cut] ++ providers.map CompiledEntry.realClass ++
    (createAutoMocks env providers (some cut) fuel).map
      (fun pm => CompiledEntry.stubObj pm.1 pm.2)

/-- Dependency resolution of the compiled module: when one identity is
registered more than once, the later registration wins. -/
def resolveProvide (entries : List CompiledEntry) (cid : Nat) : Option CompiledEntry :=
  (entries.reverse).find? (fun e => e.provide = cid)

/-!
Auxiliary definitions used by the verification statements: observable
projections of slots, the frame condition satisfied by a method body that
only calls methods and module functions, clean pre-case worlds, iterated
invocation, and concrete fixtures.
-/

/-- The underlying original behaviour of a method slot (the method the
class defined, whether or not a spy currently stands in front of it). -/
def Slot.base : Slot → Behavior
  | .plainSlot b => b
  | .spiedSlot s => s.original

/-- Whether a slot currently holds a spy. -/
def Slot.isSpied : Slot → Bool
  | .plainSlot _ => false
  | .spiedSlot _ => true

/-- The underlying original function of a module export slot. -/
def ModSlotVal.base : ModSlotVal → Behavior
  | .originalFn b => b
  | .mockFn s => s.original

/-- Whether a module export slot holds the original exported function. -/
def ModSlotVal.isOriginal : ModSlotVal → Bool
  | .originalFn _ => true
  | .mockFn _ => false

/-- How an invocation may change one method slot: a plain method is left
exactly as it is; calling through a spy may consume its once-queue but
never changes the recorded original or the steady default. -/
def SlotFrame (s1 s2 : Slot) : Prop :=
  match s1, s2 with
  | .plainSlot b1, .plainSlot b2 => b1 = b2
  | .spiedSlot a, .spiedSlot b => a.original = b.original ∧ a.defaultImpl = b.defaultImpl
  | _, _ => False

/-- How an invocation may change one module export slot. -/
def ModFrame (v1 v2 : ModSlotVal) : Prop :=
  match v1, v2 with
  | .originalFn b1, .originalFn b2 => b1 = b2
  | .mockFn a, .mockFn b => a.original = b.original ∧ a.defaultImpl = b.defaultImpl
  | _, _ => False

/-- Frame condition on a bound method body: it only invokes methods and
module functions (possibly consuming once-queues) and does not redefine
property descriptors. -/
def FrameResp (f : World → CallResult × World) : Prop :=
  ∀ w : World,
    (∀ p m, SlotFrame (w.prov p m) ((f w).2.prov p m))
    ∧ (∀ mo fn, ModFrame (w.modf mo fn) ((f w).2.modf mo fn))
    ∧ (f w).2.frozen = w.frozen

/-- A clean pre-case world: no leftover spies on instance methods, no
leftover mock functions on module exports, no non-configurable
properties. -/
def CleanWorld (w : World) : Prop :=
  (∀ p m, ∃ b, w.prov p m = .plainSlot b)
  ∧ (∀ mo fn, ∃ b, w.modf mo fn = .originalFn b)
  ∧ (∀ p m, w.frozen p m = false)

/-- The handle `applyMocks` pushes for the group of one key: derived from
the group head alone (`testingModule.get(firstMock.provider)` and the
method name), independently of the world. -/
def handleOf (mocks : List MockConfig) (k : String) : Nat × String :=
  match groupFor mocks k with
  | [] => (0, "")
  | c :: _ => (c.provider.pid, c.method)

/-- The handle `applySelfSpies` pushes for one of its groups. -/
def selfHandleOf (cutPid : Nat) (spies : List SelfSpyConfig) (k : String) :
    Nat × String :=
  match selfSpyGroupFor spies k with
  | [] => (0, "")
  | c :: _ => (cutPid, c.method)

/-- The (module, export) key of a module mock configuration. -/
def modKeyOf (mk : ModuleMockConfig) : String × String :=
  (mk.moduleName, mk.method)

/-- The pure effect of restoring a batch of provider spy handles when no
restore throws. -/
def restoreRun (hs : List (Nat × String)) (w : World) : World :=
  hs.foldl mockRestoreStep w

/-- Invoke one provider method a number of times, collecting the results
in order. -/
def callTimes (w : World) (p : Nat) (m : String) : Nat → List CallResult × World
  | 0 => ([], w)
  | n + 1 =>
    let (r, w1) := callMethod w p m
    let (rs, w2) := callTimes w1 p m n
    (r :: rs, w2)

/-- Whether an outcome is a failure reported through the
`Unexpected error: ...` wrapper of the value-expectation branch. -/
def reportedAsUnexpectedError : Outcome → Bool
  | .fail (.unexpectedError _) => true
  | _ => false

/-!
Concrete fixtures for the closed statements.
-/

/-- A clean concrete world: every instance method returns `99`, every
module export returns `7`, nothing is frozen. -/
def w0 : World :=
  { prov := fun _ _ => .plainSlot (.retValue (.num 99)),
    modf := fun _ _ => .originalFn (.retValue (.num 7)),
    frozen := fun _ _ => false }

/-- A collaborator class named `Svc` with identity 0. -/
def pSvc1 : ProviderRef := { pid := 0, name := "Svc", asString := "class Svc [a]" }

/-- A different collaborator class that also happens to be named `Svc`. -/
def pSvc2 : ProviderRef := { pid := 1, name := "Svc", asString := "class Svc [b]" }

/-- A collaborator class named `DepService`. -/
def pDep : ProviderRef := { pid := 1, name := "DepService", asString := "class DepService" }

/-- A collaborator class named `A`. -/
def pA : ProviderRef := { pid := 0, name := "A", asString := "class A" }

/-- A collaborator class named `B`. -/
def pB : ProviderRef := { pid := 1, name := "B", asString := "class B" }

/-- A test case whose expectation is `{error}` and which configures
nothing else. -/
def tcThrowExp : TestCase :=
  { description := "expects a throw", args := [], mocks := [], moduleMocks := [],
    expectation := some (.errorE (.errObj "expected")), spies := [] }

/-- A test case expecting the sync value `2`. -/
def tcExpectTwo : TestCase :=
  { description := "expects two", args := [], mocks := [], moduleMocks := [],
    expectation := some (.value (.num 2)), spies := [] }

/-- Two `value` mock configurations on the same provider and method. -/
def mocksSeq : List MockConfig :=
  [ { provider := pDep, method := "m", spec := .value (.num 1) },
    { provider := pDep, method := "m", spec := .value (.num 2) } ]

/-- Mock configurations on two distinct providers that share a name. -/
def mocksSameName : List MockConfig :=
  [ { provider := pSvc1, method := "m", spec := .value (.num 1) },
    { provider := pSvc2, method := "m", spec := .value (.num 2) } ]

/-- A test case with two module mock configurations on the same
(module, export) target. -/
def tcDupModule : TestCase :=
  { description := "duplicate module target", args := [], mocks := [],
    moduleMocks :=
      [ { moduleName := "fs", method := "readFileSync", spec := .value (.num 1) },
        { moduleName := "fs", method := "readFileSync", spec := .value (.num 2) } ],
    expectation := some (.value (.num 5)), spies := [] }

/-- A test case with one mock each on two distinct providers. -/
def tcTwoMocks : TestCase :=
  { description := "two mocks", args := [],
    mocks :=
      [ { provider := pA, method := "a", spec := .value .undef },
        { provider := pB, method := "b", spec := .value .undef } ],
    moduleMocks := [], expectation := some (.value (.num 5)), spies := [] }

/-- A method body that returns `5` but also makes the property behind the
first mock handle non-configurable, so that its `mockRestore` throws. -/
def freezeBody : World → CallResult × World :=
  fun w => (.ret (.num 5), { w with frozen := fun p m => p == 0 && m == "a" })

/-- The case a builder chain produces when no `expect...` method was ever
called: args and one mock configured, expectation never assigned. -/
def c10Case : TestCase :=
  (((CaseBuilderState.new "no expectation").mockReturnValue pDep "m" (.num 5)).args
    [.num 1]).doneCase

/-- Class environment for the ConfigService counterexample: the CUT
(identity 0) depends on a class named ConfigService (identity 1). -/
def envCfg : ClassEnv :=
  [ (0, { name := "CutService", srcText := "class CutService [src]",
          paramtypes := [.cls 1],
          methods := ["constructor", "run"] }),
    (1, { name := "ConfigService", srcText := "class ConfigService [src]",
          paramtypes := [],
          methods := ["constructor", "get", "getOrThrow", "has"] }) ]

/-- Class environment where the dependency (identity 1) is named
`MyConfigService`: not the exact name, but its source text contains the
substring `ConfigService`, so the resolver recognises it. -/
def envCfgSub : ClassEnv :=
  [ (0, { name := "CutService", srcText := "class CutService [src]",
          paramtypes := [.cls 1],
          methods := ["constructor", "run"] }),
    (1, { name := "MyConfigService", srcText := "class MyConfigService [src]",
          paramtypes := [],
          methods := ["constructor", "load", "refresh"] }) ]

/-- Class environment with a transitive chain: the CUT (0) depends on
ServiceA (1), which depends on ServiceB (2); only ServiceA is provided. -/
def envTrans : ClassEnv :=
  [ (0, { name := "CutService", srcText := "class CutService [src]",
          paramtypes := [.cls 1],
          methods := ["constructor", "run"] }),
    (1, { name := "ServiceA", srcText := "class ServiceA [src]",
          paramtypes := [.cls 2],
          methods := ["constructor", "doA"] }),
    (2, { name := "ServiceB", srcText := "class ServiceB [src]",
          paramtypes := [],
          methods := ["constructor", "doB", "doBMore"] }) ]

/-- A test case exercising all three replacement flavours with distinct
targets: one collaborator mock, one module mock, one self-spy. -/
def tcFull : TestCase :=
  { description := "full case", args := [],
    mocks := [ { provider := pA, method := "a", spec := .value (.num 3) } ],
    moduleMocks :=
      [ { moduleName := "fs", method := "readFileSync", spec := .asyncValue (.num 4) } ],
    expectation := some (.value (.num 5)),
    spies := [ { method := "helper", spec := .errorK (.errObj "x") } ] }

/-!
Theorems.
-/

/-- C1: code-bug evaluation.  Under an `{error}` expectation, a method
that throws synchronously passes and one whose promise rejects passes —
but a method that returns a plain value, or whose promise resolves,
ALSO passes: the engine throws its own
`Expected method to throw an error, but it returned a value` failure
(or the failed `rejects` assertion) inside the try, the surrounding
catch receives it, and the `expect(() => { throw error }).toThrow()`
check in the catch succeeds on any error, swallowing the failure.  The
spec (and the message of the swallowed error) say these two runs must be
test failures. -/
theorem executeCase_error_expectation_never_fails :
    (executeCase (fun w => (.ret (.num 42), w)) tcThrowExp 0 w0).1 = .pass
    ∧ (executeCase (fun w => (.promiseR (.resolves (.num 42)), w)) tcThrowExp 0 w0).1 = .pass
    ∧ (executeCase (fun w => (.thrownE (.errObj "boom"), w)) tcThrowExp 0 w0).1 = .pass
    ∧ (executeCase (fun w => (.promiseR (.rejects (.errObj "boom")), w)) tcThrowExp 0 w0).1 = .pass := by
  refine ⟨by decide, by decide, by decide, by decide⟩

/-- C10: a `CaseBuilder` chain that configures args and a mock but never
calls `expectReturn`, `expectAsync` or `expectThrow` stores an
`undefined` expectation; `executeCase` on that case then fails with the
`TypeError` raised by evaluating `'error' in expectation`, and the mocks
installed before that point are still restored by the finally block
(the mocked slot is back to its pre-case state). -/
theorem caseBuilder_missing_expectation_crashes_executeCase :
    c10Case.expectation = none
    ∧ (executeCase (fun w => (.ret .undef, w)) c10Case 0 w0).1 = .fail .typeErrorInOnUndefined
    ∧ (executeCase (fun w => (.ret .undef, w)) c10Case 0 w0).2.prov 1 "m" = w0.prov 1 "m" := by
  refine ⟨by decide, by decide, by decide⟩

/-- C2: counterexample.  Two `value` mocks on the same provider method
are installed only as `mockReturnValueOnce` entries, with no steady
default; the third invocation falls back to the original method of the
spied instance (here returning `99`), not to the second configured value
`2` as the claim states. -/
theorem applyMocks_multi_value_fallback_counterexample :
    (callTimes (applyMocks w0 mocksSeq).2 1 "m" 3).1
      = [.ret (.num 1), .ret (.num 2), .ret (.num 99)]
    ∧ (CallResult.ret (.num 99) : CallResult) ≠ .ret (.num 2) := by
  refine ⟨by decide, by decide⟩

/-- C3: counterexample.  A case with two module mock configurations on
the same (module, export) target passes, yet after the finally block the
export no longer holds the original function: the second restore closure
writes back the reference it captured after the first configuration had
already installed the spy, so the mock function is left installed. -/
theorem executeCase_duplicate_module_mock_not_restored :
    (executeCase (fun w => (.ret (.num 5), w)) tcDupModule 0 w0).1 = .pass
    ∧ ((executeCase (fun w => (.ret (.num 5), w)) tcDupModule 0 w0).2.modf
        "fs" "readFileSync").isOriginal = false
    ∧ (executeCase (fun w => (.ret (.num 5), w)) tcDupModule 0 w0).2.modf
        "fs" "readFileSync" ≠ w0.modf "fs" "readFileSync" := by
  refine ⟨by decide, by decide, by decide⟩

/-- C4: counterexample.  A plain deep-equality mismatch (method returned
`1`, expectation `2`) is caught by the same catch as invocation errors
and reported wrapped as `Unexpected error: ...`; the mismatch failure is
therefore not distinguished from an unexpected invocation error by the
reported message category. -/
theorem mismatch_reported_as_unexpected_error :
    (executeCase (fun w => (.ret (.num 1), w)) tcExpectTwo 0 w0).1
      = .fail (.unexpectedError (.assertMismatch (.plainV (.num 1)) (.num 2)))
    ∧ reportedAsUnexpectedError
        (executeCase (fun w => (.ret (.num 1), w)) tcExpectTwo 0 w0).1 = true
    ∧ reportedAsUnexpectedError
        (executeCase (fun w => (.thrownE (.errObj "boom"), w)) tcExpectTwo 0 w0).1 = true := by
  refine ⟨by decide, by decide, by decide⟩

/-- C5: counterexample.  Two mocks are installed; the method body makes
the first spied property non-configurable, so its `mockRestore` throws.
The `forEach` in `restoreMocks` then never reaches the second handle —
its slot is still spied after the case — and the restoration error
replaces the would-have-passed outcome of the case instead of being
surfaced alongside it. -/
theorem restore_throw_skips_remaining_counterexample :
    (executeCase freezeBody tcTwoMocks 9 w0).1 = .fail (.cannotRedefine 0 "a")
    ∧ ((executeCase freezeBody tcTwoMocks 9 w0).2.prov 1 "b").isSpied = true
    ∧ (executeCase freezeBody tcTwoMocks 9 w0).2.prov 1 "b" ≠ w0.prov 1 "b" := by
  refine ⟨by decide, by decide, by decide⟩

/-- C7: counterexample.  Two mock configurations on two distinct provider
classes that share the name `Svc` produce equal grouping keys, land in a
single group, and `applyMocks` installs one spy carrying both values as
a sequential chain on the first provider instance only — the second
provider instance is never touched.  Providers are therefore merged by
name, not compared by identity. -/
theorem same_name_providers_merged_counterexample :
    pSvc1 ≠ pSvc2
    ∧ mockKey { provider := pSvc1, method := "m", spec := .value (.num 1) }
        = mockKey { provider := pSvc2, method := "m", spec := .value (.num 2) }
    ∧ (applyMocks w0 mocksSameName).1 = [(0, "m")]
    ∧ (applyMocks w0 mocksSameName).2.prov 0 "m"
        = .spiedSlot { original := .retValue (.num 99),
                       onceQueue := [.retValue (.num 1), .retValue (.num 2)],
                       defaultImpl := none }
    ∧ (applyMocks w0 mocksSameName).2.prov 1 "m" = w0.prov 1 "m" := by
  refine ⟨by decide, by decide, by decide, by decide, by decide⟩

/-- C9: counterexample.  The CUT depends on an unprovided class named
ConfigService; the resolver substitutes the bespoke ConfigService mock
for it, and that stub has a method (`getOrThrow`) that throws instead of
returning `undefined` — contradicting the claim that every method of an
auto-generated stub returns `undefined`.  The recognition is by exact
name OR by the `toString().includes` substring check, so a class named
`MyConfigService` (whose source text contains the substring) also gets
the bespoke mock instead of a plain `jest.fn()` stub. -/
theorem configService_stub_not_undefined_counterexample :
    createAutoMocks envCfg [] (some 0) 9 = [(1, createConfigServiceMock)]
    ∧ ("getOrThrow", StubFn.csGetOrThrow) ∈ createConfigServiceMock
    ∧ stubCall .csGetOrThrow [.str "apiKey"]
        = .thrownE (.errObj "Configuration key apiKey not found")
    ∧ stubCall .csGetOrThrow [.str "apiKey"] ≠ .ret .undef
    ∧ isConfigService envCfgSub 1 = true
    ∧ createAutoMocks envCfgSub [] (some 0) 9 = [(1, createConfigServiceMock)] := by
  refine ⟨by decide, by decide, by decide, by decide, by decide, by decide⟩

/-- C7 amended: two mock configurations of a case land in the same
`mockGroups` group (and hence share one spy and one sequential chain)
exactly when their string keys
`(provider.name || provider.toString()) + "." + method` coincide;
an identical provider reference with an equal method always yields the
same key, but the comparison is by name string, never by identity, so
two distinct providers sharing a class name are also merged. -/
theorem mock_grouping_by_name_key (mocks : List MockConfig) (m1 m2 : MockConfig)
    (h1 : m1 ∈ mocks) (h2 : m2 ∈ mocks) :
    ((∃ k, m1 ∈ groupFor mocks k ∧ m2 ∈ groupFor mocks k) ↔ mockKey m1 = mockKey m2)
    ∧ (m1.provider = m2.provider → m1.method = m2.method → mockKey m1 = mockKey m2) := by
  constructor
  · constructor
    · rintro ⟨k, hk1, hk2⟩
      have e1 : mockKey m1 = k := by
        have := List.mem_filter.mp hk1
        simpa using this.2
      have e2 : mockKey m2 = k := by
        have := List.mem_filter.mp hk2
        simpa using this.2
      rw [e1, e2]
    · intro he
      refine ⟨mockKey m1, ?_, ?_⟩
      · exact List.mem_filter.mpr ⟨h1, by simp⟩
      · exact List.mem_filter.mpr ⟨h2, by simp [he]⟩
  · intro hp hm
    simp [mockKey, hp, hm]

/-- C7 amended, witness: the two same-name configurations of the
counterexample are in one group by the key criterion. -/
theorem mock_grouping_by_name_key_witness :
    ((∃ k, ({ provider := pSvc1, method := "m", spec := .value (.num 1) } : MockConfig)
          ∈ groupFor mocksSameName k
        ∧ ({ provider := pSvc2, method := "m", spec := .value (.num 2) } : MockConfig)
          ∈ groupFor mocksSameName k)
      ↔ mockKey { provider := pSvc1, method := "m", spec := .value (.num 1) }
          = mockKey { provider := pSvc2, method := "m", spec := .value (.num 2) }) :=
  (mock_grouping_by_name_key mocksSameName _ _ (by decide) (by decide)).1

/-- C4 amended: in the value and async-value branches, an error thrown
during invocation is reported as `Unexpected error: ...` with the
underlying error embedded (surfaced, not masked) — but a deep-equality
mismatch raised by the `toEqual` assertion inside the same try lands in
the same catch and is wrapped in the identical `Unexpected error: ...`
form, so the wrapper itself does not distinguish the two failure
modes; only the embedded inner error differs. -/
theorem caseBody_wraps_invocation_and_mismatch_uniformly
    (f : World → CallResult × World) (expd : Val) (w : World) :
    (∀ e w1, f w = (.thrownE e, w1) →
      (caseBody f (some (.value expd)) w).1 = .fail (.unexpectedError (.userErr e)))
    ∧ (∀ v w1, f w = (.ret v, w1) → v ≠ expd →
      (caseBody f (some (.value expd)) w).1
        = .fail (.unexpectedError (.assertMismatch (.plainV v) expd)))
    ∧ (∀ e w1, f w = (.promiseR (.rejects e), w1) →
      (caseBody f (some (.asyncValue expd)) w).1
        = .fail (.unexpectedError (.userErr e))) := by
  refine ⟨?_, ?_, ?_⟩
  · intro e w1 h
    simp [caseBody, h, valueBranch]
  · intro v w1 h hne
    simp [caseBody, h, valueBranch, toEqualCheck, toEqualPasses, hne]
  · intro e w1 h
    simp [caseBody, h, valueBranch]

/-- C4 amended, witness: a thrown error and a mismatch, both wrapped. -/
theorem caseBody_wraps_uniformly_witness :
    (caseBody (fun w => (.thrownE (.errObj "boom"), w)) (some (.value (.num 2))) w0).1
      = .fail (.unexpectedError (.userErr (.errObj "boom")))
    ∧ (caseBody (fun w => (.ret (.num 1), w)) (some (.value (.num 2))) w0).1
      = .fail (.unexpectedError (.assertMismatch (.plainV (.num 1)) (.num 2))) :=
  ⟨(caseBody_wraps_invocation_and_mismatch_uniformly
      (fun w => (.thrownE (.errObj "boom"), w)) (.num 2) w0).1 (.errObj "boom") w0 rfl,
   (caseBody_wraps_invocation_and_mismatch_uniformly
      (fun w => (.ret (.num 1), w)) (.num 2) w0).2.1 (.num 1) w0 rfl (by decide)⟩

/-- Restoring one handle never changes which properties are frozen. -/
theorem mockRestoreStep_frozen (w : World) (h : Nat × String) :
    (mockRestoreStep w h).frozen = w.frozen := by
  unfold mockRestoreStep
  cases w.prov h.1 h.2 <;> rfl

/-- C5 amended: when restoring the handles of a batch, the first
`mockRestore` that throws aborts the `forEach` immediately: the handles
before it have been restored, the throwing handle and every handle after
it are left un-restored, and the restoration error propagates (in the
finally block it then replaces the case outcome rather than being
surfaced alongside it). -/
theorem restoreMocksE_stops_at_first_failure
    (pre post : List (Nat × String)) (h : Nat × String) (w : World)
    (hpre : ∀ x ∈ pre, w.frozen x.1 x.2 = false)
    (hfro : w.frozen h.1 h.2 = true) :
    restoreMocksE (pre ++ h :: post) w
      = .error (.cannotRedefine h.1 h.2, restoreRun pre w) := by
  induction pre generalizing w with
  | nil =>
    simp only [List.nil_append, restoreMocksE, mockRestoreE, hfro, if_true]
    rfl
  | cons x rest ih =>
    have hx : w.frozen x.1 x.2 = false := hpre x (by simp)
    have hstep : ∀ y ∈ rest, (mockRestoreStep w x).frozen y.1 y.2 = false := by
      intro y hy
      rw [mockRestoreStep_frozen]
      exact hpre y (by simp [hy])
    have hfro2 : (mockRestoreStep w x).frozen h.1 h.2 = true := by
      rw [mockRestoreStep_frozen]; exact hfro
    simp only [List.cons_append, restoreMocksE, mockRestoreE, hx]
    simp only [Bool.false_eq_true, if_false, List.append_eq]
    rw [ih (mockRestoreStep w x) hstep hfro2]
    simp [restoreRun]

/-- C5 amended, witness: with the world left by `freezeBody` (handle
`(0, a)` frozen), restoring `[(0, a), (1, b)]` throws at the first
handle and never restores the second. -/
theorem restoreMocksE_stops_at_first_failure_witness :
    restoreMocksE ([] ++ (0, "a") :: [(1, "b")]) (freezeBody w0).2
      = .error (.cannotRedefine 0 "a", restoreRun [] (freezeBody w0).2) :=
  restoreMocksE_stops_at_first_failure [] [(1, "b")] (0, "a") (freezeBody w0).2
    (by intro x hx; exact absurd hx (List.not_mem_nil x)) (by decide)

/-- Installing the once chain for a list of `value` configurations
appends the corresponding one-time behaviours in declaration order. -/
theorem foldl_once_values (p : ProviderRef) (m : String) :
    ∀ (vs : List Val) (spy : SpyState),
      ((vs.map (fun v => ({ provider := p, method := m, spec := .value v } : MockConfig))).foldl
          (fun sp mk => applyOnceSwitch sp mk.spec) spy)
        = { spy with onceQueue := spy.onceQueue ++ vs.map .retValue } := by
  intro vs
  induction vs with
  | nil => intro spy; simp
  | cons v tl ih =>
    intro spy
    simp only [List.map_cons, List.foldl_cons]
    rw [ih]
    simp [applyOnceSwitch]

/-- The key-collection fold of `applyMocks` adds nothing when every
remaining configuration has a key already collected. -/
theorem groupKeys_foldl_mem (K : String) :
    ∀ (l : List MockConfig) (acc : List String),
      (∀ mk ∈ l, mockKey mk = K) → K ∈ acc →
      l.foldl (fun ks mk => if mockKey mk ∈ ks then ks else ks ++ [mockKey mk]) acc = acc := by
  intro l
  induction l with
  | nil => intro acc _ _; rfl
  | cons c tl ih =>
    intro acc hall hK
    have hc : mockKey c = K := hall c (by simp)
    simp only [List.foldl_cons, hc]
    rw [if_pos hK]
    exact ih acc (fun mk h => hall mk (by simp [h])) hK

/-- When all configurations share one key, `mockGroups` has exactly that
key. -/
theorem groupKeys_cons_all_eq (c : MockConfig) (tl : List MockConfig)
    (hall : ∀ mk ∈ tl, mockKey mk = mockKey c) :
    groupKeys (c :: tl) = [mockKey c] := by
  unfold groupKeys
  simp only [List.foldl_cons]
  rw [if_neg (List.not_mem_nil _)]
  simp only [List.nil_append]
  exact groupKeys_foldl_mem (mockKey c) tl [mockKey c] hall (by simp)

/-- When all configurations share one key, the single group contains all
of them, in declaration order. -/
theorem groupFor_all_eq (mocks : List MockConfig) (K : String)
    (hall : ∀ mk ∈ mocks, mockKey mk = K) : groupFor mocks K = mocks := by
  unfold groupFor
  apply List.filter_eq_self.mpr
  intro a ha
  simp [hall a ha]

/-- `applyMocks` on N `value` configurations (N at least two) for one
provider method: one spy is installed on that method, remembering the
plain original, with the configured values as its once-queue, in order,
and no steady default. -/
theorem applyMocks_uniform_values (p : ProviderRef) (m : String) (v0 v1 : Val)
    (vrest : List Val) (w : World) (b : Behavior)
    (hb : w.prov p.pid m = .plainSlot b) :
    applyMocks w ((v0 :: v1 :: vrest).map fun v =>
        { provider := p, method := m, spec := .value v })
      = ([(p.pid, m)],
         w.setProv p.pid m (.spiedSlot
           { original := b, onceQueue := (v0 :: v1 :: vrest).map .retValue,
             defaultImpl := none })) := by
  have hall : ∀ mk ∈ (v0 :: v1 :: vrest).map (fun v =>
      ({ provider := p, method := m, spec := .value v } : MockConfig)),
      mockKey mk = mockKey { provider := p, method := m, spec := .value v0 } := by
    intro mk hmk
    obtain ⟨v, _, rfl⟩ := List.mem_map.mp hmk
    rfl
  have hkeys : groupKeys ((v0 :: v1 :: vrest).map fun v =>
      { provider := p, method := m, spec := .value v })
      = [mockKey { provider := p, method := m, spec := .value v0 }] := by
    simp only [List.map_cons]
    exact groupKeys_cons_all_eq _ _ (fun mk hmk => hall mk (by simp [hmk]))
  have hgrp : groupFor ((v0 :: v1 :: vrest).map fun v =>
      { provider := p, method := m, spec := .value v })
      (mockKey { provider := p, method := m, spec := .value v0 })
      = (v0 :: v1 :: vrest).map fun v =>
        { provider := p, method := m, spec := .value v } :=
    groupFor_all_eq _ _ hall
  unfold applyMocks
  rw [hkeys]
  unfold applyMocksGo applyMocksGo applyGroup
  rw [hgrp]
  simp only [List.map_cons]
  rw [hb]
  have hlen : (({ provider := p, method := m, spec := .value v0 } : MockConfig)
      :: ({ provider := p, method := m, spec := .value v1 } : MockConfig)
      :: vrest.map (fun v => ({ provider := p, method := m, spec := .value v } : MockConfig))).length > 1 := by
    simp
  rw [if_pos hlen]
  have hfold := foldl_once_values p m (v0 :: v1 :: vrest)
    (spyOnSlot (.plainSlot b))
  simp only [List.map_cons] at hfold
  rw [hfold]
  simp [spyOnSlot]

/-- Repeated invocation through a spy with no steady default: the
once-queue is consumed in order, then every further call runs the
original behaviour. -/
theorem callTimes_spied_no_default :
    ∀ (k : Nat) (w : World) (p : Nat) (m : String) (b : Behavior) (q : List Behavior),
      w.prov p m = .spiedSlot { original := b, onceQueue := q, defaultImpl := none } →
      (callTimes w p m k).1
        = (q.take k).map invokeBehavior
            ++ List.replicate (k - q.length) (invokeBehavior b) := by
  intro k
  induction k with
  | zero => intro w p m b q _; simp [callTimes]
  | succ n ih =>
    intro w p m b q h
    cases q with
    | nil =>
      have hnew : (w.setProv p m (.spiedSlot
          { original := b, onceQueue := [], defaultImpl := none })).prov p m
          = .spiedSlot { original := b, onceQueue := [], defaultImpl := none } := by
        simp [World.setProv]
      simp only [callTimes, callMethod, h, spyInvoke]
      rw [ih _ p m b [] hnew]
      simp [List.replicate_succ]
    | cons qh qt =>
      have hnew : (w.setProv p m (.spiedSlot
          { original := b, onceQueue := qt, defaultImpl := none })).prov p m
          = .spiedSlot { original := b, onceQueue := qt, defaultImpl := none } := by
        simp [World.setProv]
      simp only [callTimes, callMethod, h, spyInvoke]
      rw [ih _ p m b qt hnew]
      simp [List.take, Nat.succ_sub_succ]

/-- C2 amended: with N `value`-kind mock configurations (N at least two)
on the same provider method, the first N invocations during the case
return the configured values in declaration order; every later
invocation falls back to the original behaviour of the spied method —
only one-time mocks are installed and no steady default — rather than
repeating the Nth configured value. -/
theorem applyMocks_sequential_values_then_original
    (p : ProviderRef) (m : String) (v0 v1 : Val) (vrest : List Val)
    (w : World) (b : Behavior) (k : Nat)
    (hb : w.prov p.pid m = .plainSlot b) :
    (callTimes (applyMocks w ((v0 :: v1 :: vrest).map fun v =>
        { provider := p, method := m, spec := .value v })).2 p.pid m k).1
      = ((v0 :: v1 :: vrest).take k).map .ret
          ++ List.replicate (k - (v0 :: v1 :: vrest).length) (invokeBehavior b) := by
  rw [applyMocks_uniform_values p m v0 v1 vrest w b hb]
  have hslot : (w.setProv p.pid m (.spiedSlot
      { original := b, onceQueue := List.map Behavior.retValue (v0 :: v1 :: vrest),
        defaultImpl := none })).prov p.pid m
      = Slot.spiedSlot
          { original := b, onceQueue := List.map Behavior.retValue (v0 :: v1 :: vrest),
            defaultImpl := none } := by
    simp [World.setProv]
  rw [callTimes_spied_no_default k _ p.pid m b _ hslot]
  rw [← List.map_take, List.map_map, List.length_map]
  congr 1

/-- C2 amended, witness: values 1 and 2 configured, three calls — the
third returns the original `99`, not `2`. -/
theorem applyMocks_sequential_values_then_original_witness :
    (callTimes (applyMocks w0 (([Val.num 1, Val.num 2]).map fun v =>
        { provider := pDep, method := "m", spec := .value v })).2 pDep.pid "m" 3).1
      = (([Val.num 1, Val.num 2]).take 3).map .ret
          ++ List.replicate (3 - ([Val.num 1, Val.num 2]).length)
              (invokeBehavior (.retValue (.num 99))) :=
  applyMocks_sequential_values_then_original pDep "m" (.num 1) (.num 2) [] w0
    (.retValue (.num 99)) 3 (by decide)

/-- One scope value per registered test. -/
theorem scopesAlong_length {Scope : Type}
    (tests : List (String × (Scope → Outcome × Scope))) (s : Scope) :
    (scopesAlong tests s).length = tests.length := by
  induction tests generalizing s with
  | nil => rfl
  | cons t rest ih =>
    obtain ⟨d, body⟩ := t
    simp [scopesAlong, ih]

/-- Each registered test starts on the scope its predecessor left
behind. -/
theorem scopesAlong_getD_succ {Scope : Type} :
    ∀ (tests : List (String × (Scope → Outcome × Scope))) (s0 d : Scope)
      (dT : String × (Scope → Outcome × Scope)) (i : Nat),
      i + 1 < tests.length →
      (scopesAlong tests s0).getD (i + 1) d
        = ((tests.getD i dT).2 ((scopesAlong tests s0).getD i d)).2 := by
  intro tests
  induction tests with
  | nil =>
    intro s0 d dT i hi
    simp at hi
  | cons t rest ih =>
    intro s0 d dT i hi
    obtain ⟨nm, body⟩ := t
    cases i with
    | zero =>
      cases rest with
      | nil => simp at hi
      | cons r rest2 =>
        obtain ⟨nm2, body2⟩ := r
        simp [scopesAlong]
    | succ j =>
      have hj : j + 1 < rest.length := by
        simpa [Nat.succ_lt_succ_iff] using hi
      simpa [scopesAlong] using ih (body s0).2 d dT j hj

/-- C6: each suite registers exactly one `beforeAll` compile hook; the
tests of the suite run against the scope that single compilation
produced; within the suite each later case starts on the scope the
previous case left behind (so CUT-internal mutations persist across the
cases of one suite); and two registered suites each run from their own
fresh compilation — the scope of one suite never flows into the other. -/
theorem executeSuite_one_scope_shared_and_fresh {Scope TC : Type}
    (compile : Unit → Scope) (caseExec : TC → Scope → Outcome × Scope)
    (s1 s2 : TestSuiteG TC) (initial : Scope) :
    (executeSuiteR compile caseExec s1).beforeAllHooks.length = 1
    ∧ runDescribe (executeSuiteR compile caseExec s1) initial
        = runTests (executeSuiteR compile caseExec s1).tests (compile ())
    ∧ (∀ i, i + 1 < (executeSuiteR compile caseExec s1).tests.length →
        (scopesAlong (executeSuiteR compile caseExec s1).tests (compile ())).getD
            (i + 1) (compile ())
          = (((executeSuiteR compile caseExec s1).tests.getD i
                ("", fun s => (.pass, s))).2
              ((scopesAlong (executeSuiteR compile caseExec s1).tests
                (compile ())).getD i (compile ()))).2)
    ∧ runDescribes
        [executeSuiteR compile caseExec s1, executeSuiteR compile caseExec s2] initial
        = [(runTests (executeSuiteR compile caseExec s1).tests (compile ())).1,
           (runTests (executeSuiteR compile caseExec s2).tests (compile ())).1] := by
  refine ⟨rfl, rfl, ?_, rfl⟩
  intro i hi
  exact scopesAlong_getD_succ _ (compile ()) (compile ()) _ i hi

/-- C6, witness: a counter scope compiled to 0; each case increments it.
Within the suite the second case starts on the scope value 1 the first
case produced; a second suite starts again from 0. -/
theorem executeSuite_one_scope_witness :
    ((scopesAlong (executeSuiteR (fun _ => (0 : Nat))
          (fun (_ : Unit) n => (Outcome.pass, n + 1))
          ⟨"m", [("one", ()), ("two", ())]⟩).tests 0).getD 1 0
        = (((executeSuiteR (fun _ => (0 : Nat))
            (fun (_ : Unit) n => (Outcome.pass, n + 1))
            ⟨"m", [("one", ()), ("two", ())]⟩).tests.getD 0
              ("", fun s => (.pass, s))).2
            ((scopesAlong (executeSuiteR (fun _ => (0 : Nat))
              (fun (_ : Unit) n => (Outcome.pass, n + 1))
              ⟨"m", [("one", ()), ("two", ())]⟩).tests 0).getD 0 0)).2)
    ∧ (scopesAlong (executeSuiteR (fun _ => (0 : Nat))
        (fun (_ : Unit) n => (Outcome.pass, n + 1))
        ⟨"m", [("one", ()), ("two", ())]⟩).tests 0) = [0, 1]
    ∧ (scopesAlong (executeSuiteR (fun _ => (0 : Nat))
        (fun (_ : Unit) n => (Outcome.pass, n + 1))
        ⟨"m2", [("solo", ())]⟩).tests 0) = [0] :=
  ⟨(executeSuite_one_scope_shared_and_fresh (fun _ => (0 : Nat))
      (fun (_ : Unit) n => (Outcome.pass, n + 1))
      ⟨"m", [("one", ()), ("two", ())]⟩ ⟨"m2", [("solo", ())]⟩ 0).2.2.1 0 (by decide),
   by decide, by decide⟩

/-- Every case body runs and its outcome is recorded under its own
description, in registration order, no matter which cases fail. -/
theorem runTests_map_fst {Scope : Type} :
    ∀ (tests : List (String × (Scope → Outcome × Scope))) (s : Scope),
      ((runTests tests s).1).map Prod.fst = tests.map Prod.fst := by
  intro tests
  induction tests with
  | nil => intro s; rfl
  | cons t rest ih =>
    intro s
    obtain ⟨d, body⟩ := t
    simp [runTests, ih]

/-- C8: the suite executer registers one `it` per case, in declaration
order, and the host runner reports one outcome per case under the case
description in that same order — the recursion of the runner continues
past failing cases, so a failure never prevents a later case of the same
suite from executing (shown literally in the last conjunct: the first
case fails, the second still runs and passes). -/
theorem executeSuite_all_cases_reported_in_order {Scope TC : Type}
    (compile : Unit → Scope) (caseExec : TC → Scope → Outcome × Scope)
    (suite : TestSuiteG TC) (initial : Scope) :
    ((runDescribe (executeSuiteR compile caseExec suite) initial).1).map Prod.fst
      = suite.cases.map Prod.fst
    ∧ ((runDescribe (executeSuiteR compile caseExec suite) initial).1).length
      = suite.cases.length
    ∧ (runDescribe (executeSuiteR (fun _ => (0 : Nat))
          (fun (b : Bool) n => (if b then Outcome.pass else .fail .toThrowFailed, n + 1))
          ⟨"m", [("failing", false), ("subsequent", true)]⟩) 5).1
        = [("failing", .fail .toThrowFailed), ("subsequent", .pass)] := by
  have h1 : ((runDescribe (executeSuiteR compile caseExec suite) initial).1).map Prod.fst
      = suite.cases.map Prod.fst := by
    show ((runTests (executeSuiteR compile caseExec suite).tests (compile ())).1).map Prod.fst
      = suite.cases.map Prod.fst
    rw [runTests_map_fst]
    simp [executeSuiteR]
  refine ⟨h1, ?_, by decide⟩
  have := congrArg List.length h1
  simpa using this

/-- Phase two of `createAutoMocks` only ever appends stubs. -/
theorem autoMocks_foldl_mono (env : ClassEnv) (prov : List Nat) :
    ∀ (l : List Nat) (a : AutoMocksAcc) (x : Nat × MockObj),
      x ∈ a.autoMocks → x ∈ (l.foldl (autoMockStep env prov) a).autoMocks := by
  intro l
  induction l with
  | nil => intro a x hx; exact hx
  | cons p tl ih =>
    intro a x hx
    apply ih
    unfold autoMockStep
    split
    · exact hx
    · split
      · exact hx
      · exact List.mem_append_left _ hx

/-- Every processed class that is neither recognised as ConfigService
nor explicitly provided gets its auto-generated stub emitted. -/
theorem autoMocks_foldl_mem (env : ClassEnv) (prov : List Nat) :
    ∀ (l : List Nat) (a : AutoMocksAcc) (c : Nat),
      c ∈ l → isConfigService env c = false → c ∉ prov →
      (c, createMockObject env c) ∈ (l.foldl (autoMockStep env prov) a).autoMocks := by
  intro l
  induction l with
  | nil => intro a c hc _ _; simp at hc
  | cons p tl ih =>
    intro a c hc hcs hcp
    rcases List.mem_cons.mp hc with h | h
    · subst h
      rw [List.foldl_cons]
      apply autoMocks_foldl_mono
      unfold autoMockStep
      rw [if_neg (by simp [hcs]), if_neg hcp]
      simp
    · rw [List.foldl_cons]
      exact ih _ c h hcs hcp

/-- The fold step on a class recognised as ConfigService: flag set,
class recorded, stubs untouched. -/
theorem autoMockStep_cs (env : ClassEnv) (prov : List Nat) (a : AutoMocksAcc)
    (p : Nat) (h : isConfigService env p = true) :
    (autoMockStep env prov a p).configServiceFound = true
    ∧ (autoMockStep env prov a p).configServiceProvider = some p
    ∧ (autoMockStep env prov a p).autoMocks = a.autoMocks := by
  simp [autoMockStep, h]

/-- The fold step on a class not recognised as ConfigService keeps the
flag and the recorded class. -/
theorem autoMockStep_not_cs (env : ClassEnv) (prov : List Nat) (a : AutoMocksAcc)
    (p : Nat) (h : ¬ isConfigService env p = true) :
    (autoMockStep env prov a p).configServiceFound = a.configServiceFound
    ∧ (autoMockStep env prov a p).configServiceProvider = a.configServiceProvider := by
  unfold autoMockStep
  rw [if_neg h]
  split
  · exact ⟨rfl, rfl⟩
  · exact ⟨rfl, rfl⟩

/-- Once the ConfigService flag and provider are set to the unique
recognised ConfigService class, the rest of the fold preserves them. -/
theorem autoMocks_foldl_cs_preserve (env : ClassEnv) (prov : List Nat) :
    ∀ (l : List Nat) (c : Nat) (a : AutoMocksAcc),
      (∀ d ∈ l, isConfigService env d = true → d = c) →
      a.configServiceFound = true → a.configServiceProvider = some c →
      (l.foldl (autoMockStep env prov) a).configServiceFound = true
      ∧ (l.foldl (autoMockStep env prov) a).configServiceProvider = some c := by
  intro l
  induction l with
  | nil => intro c a _ hf hp; exact ⟨hf, hp⟩
  | cons p tl ih =>
    intro c a huniq hf hp
    by_cases hcs : isConfigService env p = true
    · have hpc : p = c := huniq p (by simp) hcs
      subst hpc
      exact ih p _ (fun d hd h => huniq d (by simp [hd]) h)
        (autoMockStep_cs env prov a p hcs).1 (autoMockStep_cs env prov a p hcs).2.1
    · exact ih c _ (fun d hd h => huniq d (by simp [hd]) h)
        (((autoMockStep_not_cs env prov a p hcs).1).trans hf)
        (((autoMockStep_not_cs env prov a p hcs).2).trans hp)

/-- If the unique recognised ConfigService class occurs among the
processed providers, the fold ends with the flag set and that class
recorded. -/
theorem autoMocks_foldl_cs (env : ClassEnv) (prov : List Nat) :
    ∀ (l : List Nat) (c : Nat) (a : AutoMocksAcc),
      c ∈ l → isConfigService env c = true →
      (∀ d ∈ l, isConfigService env d = true → d = c) →
      (l.foldl (autoMockStep env prov) a).configServiceFound = true
      ∧ (l.foldl (autoMockStep env prov) a).configServiceProvider = some c := by
  intro l
  induction l with
  | nil => intro c a hc _ _; simp at hc
  | cons p tl ih =>
    intro c a hc hcs huniq
    by_cases hp : isConfigService env p = true
    · have hpc : p = c := huniq p (by simp) hp
      subst hpc
      refine autoMocks_foldl_cs_preserve env prov tl p _
        (fun d hd h => huniq d (by simp [hd]) h) ?_ ?_
      · simp [autoMockStep, hp]
      · simp [autoMockStep, hp]
    · have hc2 : c ∈ tl := by
        rcases List.mem_cons.mp hc with h | h
        · exact absurd (h ▸ hcs) hp
        · exact h
      exact ih c _ hc2 hcs (fun d hd h => huniq d (by simp [hd]) h)

/-- Every stub the fold emits belongs to a processed class that is
neither recognised as ConfigService nor explicitly provided. -/
theorem autoMocks_foldl_elems (env : ClassEnv) (prov : List Nat) :
    ∀ (l : List Nat) (a : AutoMocksAcc) (x : Nat × MockObj),
      x ∈ (l.foldl (autoMockStep env prov) a).autoMocks →
      x ∈ a.autoMocks
      ∨ ∃ p2, p2 ∈ l ∧ isConfigService env p2 = false ∧ p2 ∉ prov
          ∧ x = (p2, createMockObject env p2) := by
  intro l
  induction l with
  | nil => intro a x hx; exact Or.inl hx
  | cons p tl ih =>
    intro a x hx
    rcases ih _ x hx with h | ⟨p2, hp2, hcs2, hpp2, hx2⟩
    · by_cases h1 : isConfigService env p = true
      · simp only [autoMockStep, h1, if_true] at h
        exact Or.inl h
      · by_cases h2 : p ∈ prov
        · simp only [autoMockStep, h1, if_false, h2, if_true] at h
          exact Or.inl h
        · simp only [autoMockStep, h1, if_false, h2] at h
          rcases List.mem_append.mp h with h3 | h3
          · exact Or.inl h3
          · refine Or.inr ⟨p, by simp, ?_, h2, by simpa using h3⟩
            simpa using h1
    · exact Or.inr ⟨p2, by simp [hp2], hcs2, hpp2, hx2⟩

/-- The recorded ConfigService provider is always a recognised
ConfigService class. -/
theorem autoMocks_foldl_csprov (env : ClassEnv) (prov : List Nat) :
    ∀ (l : List Nat) (a : AutoMocksAcc),
      (∀ d, a.configServiceProvider = some d → isConfigService env d = true) →
      ∀ d, (l.foldl (autoMockStep env prov) a).configServiceProvider = some d →
        isConfigService env d = true := by
  intro l
  induction l with
  | nil => intro a ha d h; exact ha d h
  | cons p tl ih =>
    intro a ha d h
    refine ih _ ?_ d h
    intro d2 hd2
    by_cases h1 : isConfigService env p = true
    · simp only [autoMockStep, h1, if_true] at hd2
      simp only [Option.some.injEq] at hd2
      exact hd2 ▸ h1
    · by_cases h2 : p ∈ prov
      · simp only [autoMockStep, h1, if_false, h2, if_true] at hd2
        exact ha d2 hd2
      · simp only [autoMockStep, h1, if_false, h2] at hd2
        exact ha d2 hd2

/-- `find?` returns the common value when every matching element equals
it and at least one element matches. -/
theorem find?_all_eq {α : Type} (p : α → Bool) (x : α) :
    ∀ (l : List α), (∃ y, y ∈ l ∧ p y = true) → (∀ y ∈ l, p y = true → y = x) →
      l.find? p = some x := by
  intro l
  induction l with
  | nil =>
    rintro ⟨y, hy, _⟩ _
    simp at hy
  | cons h tl ih =>
    rintro ⟨y, hy, hpy⟩ hall
    by_cases hph : p h = true
    · rw [List.find?_cons_of_pos _ hph]
      rw [hall h (by simp) hph]
    · rw [List.find?_cons_of_neg _ hph]
      apply ih
      · rcases List.mem_cons.mp hy with rfl | hm
        · exact absurd hpy hph
        · exact ⟨y, hm, hpy⟩
      · intro y2 hy2 hp2
        exact hall y2 (by simp [hy2]) hp2

/-- Stubs accumulated in phase two survive into the final
`createAutoMocks` result. -/
theorem mem_createAutoMocks (env : ClassEnv) (providedProviders : List Nat)
    (cut : Option Nat) (fuel : Nat) (x : Nat × MockObj)
    (hx : x ∈ ((collectLoop env fuel (allProvidersOf cut providedProviders) []).foldl
        (autoMockStep env (allProvidersOf cut providedProviders))
        ⟨[], false, none⟩).autoMocks) :
    x ∈ createAutoMocks env providedProviders cut fuel := by
  simp only [createAutoMocks]
  split
  · exact List.mem_append_left _ hx
  · exact hx

/-- Every entry of `createAutoMocks` is either the plain stub of a
non-ConfigService class or the bespoke ConfigService mock of a
recognised ConfigService class. -/
theorem createAutoMocks_elems (env : ClassEnv) (providedProviders : List Nat)
    (cut : Option Nat) (fuel : Nat) (x : Nat × MockObj)
    (hx : x ∈ createAutoMocks env providedProviders cut fuel) :
    (isConfigService env x.1 = false ∧ x.2 = createMockObject env x.1)
    ∨ (isConfigService env x.1 = true ∧ x.2 = createConfigServiceMock) := by
  have helems := autoMocks_foldl_elems env (allProvidersOf cut providedProviders)
    (collectLoop env fuel (allProvidersOf cut providedProviders) []) ⟨[], false, none⟩ x
  have hcsprov := autoMocks_foldl_csprov env (allProvidersOf cut providedProviders)
    (collectLoop env fuel (allProvidersOf cut providedProviders) []) ⟨[], false, none⟩
    (by intro d hd; simp at hd)
  simp only [createAutoMocks] at hx
  revert hx
  split
  · intro hx
    rcases List.mem_append.mp hx with h | h
    · rcases helems h with h2 | ⟨p2, _, hcs2, _, hx2⟩
      · simp at h2
      · exact Or.inl ⟨hx2 ▸ hcs2, hx2 ▸ rfl⟩
    · have hxeq := List.mem_singleton.mp h
      rename_i hfound hprov
      have := hcsprov _ hprov
      exact Or.inr ⟨hxeq ▸ this, hxeq ▸ rfl⟩
  · intro hx
    rcases helems hx with h2 | ⟨p2, _, hcs2, _, hx2⟩
    · simp at h2
    · exact Or.inl ⟨hx2 ▸ hcs2, hx2 ▸ rfl⟩

/-- C9 amended: every class dependency the resolver discovers
(transitively, by walking `design:paramtypes` from the CUT and the
explicit providers) that is not explicitly provided is substituted by an
auto-generated stub — whose every method is a `jest.fn()` returning
`undefined` (and hence resolving to `undefined` when awaited) — EXCEPT a
dependency recognised as ConfigService (by exact name, or because its
`toString()` rendering contains the substring `ConfigService`, as for a
class named `MyConfigService`), which is substituted by the bespoke
ConfigService mock instead (whose `getOrThrow` throws); and the compiled
module resolves such a discovered, unprovided class to its stub, never
to a real instance. -/
theorem createAutoMocks_stub_for_discovered_unprovided
    (env : ClassEnv) (providedProviders : List Nat) (cut : Option Nat)
    (fuel : Nat) (c : Nat)
    (hdisc : c ∈ collectLoop env fuel (allProvidersOf cut providedProviders) [])
    (hnp : c ∉ allProvidersOf cut providedProviders) :
    (isConfigService env c = false →
      ((c, createMockObject env c) ∈ createAutoMocks env providedProviders cut fuel
       ∧ ∀ ms ∈ createMockObject env c, ∀ args, stubCall ms.2 args = .ret .undef))
    ∧ (isConfigService env c = true →
        (∀ d ∈ collectLoop env fuel (allProvidersOf cut providedProviders) [],
          isConfigService env d = true → d = c) →
        (c, createConfigServiceMock) ∈ createAutoMocks env providedProviders cut fuel)
    ∧ (isConfigService env c = false → ∀ cutN, cut = some cutN →
        resolveProvide (testsBuilderEntries env cutN providedProviders fuel) c
          = some (.stubObj c (createMockObject env c))) := by
  have hmem : isConfigService env c = false →
      (c, createMockObject env c) ∈ createAutoMocks env providedProviders cut fuel := by
    intro hcs
    exact mem_createAutoMocks env providedProviders cut fuel _
      (autoMocks_foldl_mem env (allProvidersOf cut providedProviders) _ _ c hdisc hcs hnp)
  refine ⟨?_, ?_, ?_⟩
  · intro hcs
    refine ⟨hmem hcs, ?_⟩
    intro ms hms args
    obtain ⟨m2, _, rfl⟩ := List.mem_map.mp hms
    rfl
  · intro hcs huniq
    obtain ⟨hf, hp⟩ := autoMocks_foldl_cs env (allProvidersOf cut providedProviders)
      (collectLoop env fuel (allProvidersOf cut providedProviders) [])
      c ⟨[], false, none⟩ hdisc hcs huniq
    simp only [createAutoMocks]
    rw [hf, hp]
    exact List.mem_append_right _ (by simp)
  · intro hcs cutN hcut
    subst hcut
    unfold resolveProvide
    apply find?_all_eq
    · refine ⟨.stubObj c (createMockObject env c), ?_, by simp [CompiledEntry.provide]⟩
      rw [List.mem_reverse]
      unfold testsBuilderEntries
      refine List.mem_append_right _ ?_
      exact List.mem_map.mpr ⟨(c, createMockObject env c), hmem hcs, rfl⟩
    · intro y hy hpy
      rw [List.mem_reverse] at hy
      unfold testsBuilderEntries at hy
      have hpc : y.provide = c := by simpa using hpy
      rcases List.mem_append.mp hy with hreal | hstub
      · exfalso
        rcases List.mem_append.mp hreal with hcut2 | hprovs
        · have : y = .realClass cutN := by simpa using hcut2
          subst this
          simp only [CompiledEntry.provide] at hpc
          exact hnp (by simp [allProvidersOf, hpc])
        · obtain ⟨d, hd, rfl⟩ := List.mem_map.mp hprovs
          simp only [CompiledEntry.provide] at hpc
          exact hnp (by simp [allProvidersOf, hpc ▸ hd])
      · obtain ⟨⟨d, obj⟩, hdo, rfl⟩ := List.mem_map.mp hstub
        simp only [CompiledEntry.provide] at hpc
        subst hpc
        rcases createAutoMocks_elems env providedProviders (some cutN) fuel _ hdo with
          ⟨_, hobj⟩ | ⟨hcs2, _⟩
        · simp only at hobj
          rw [hobj]
        · exact absurd hcs2 (by simp [hcs])

/-- C9 amended, witness: ServiceB (identity 2) is required only
transitively — the CUT depends on the provided ServiceA, which depends
on ServiceB — and is neither provided nor a ConfigService; it is
discovered, its stub is emitted, and the compiled module resolves
identity 2 to the stub, not to a real registration. -/
theorem createAutoMocks_stub_for_discovered_unprovided_witness :
    ((2, createMockObject envTrans 2) ∈ createAutoMocks envTrans [1] (some 0) 9)
    ∧ resolveProvide (testsBuilderEntries envTrans 0 [1] 9) 2
        = some (.stubObj 2 (createMockObject envTrans 2)) :=
  ⟨((createAutoMocks_stub_for_discovered_unprovided envTrans [1] (some 0) 9 2
      (by decide) (by decide)).1 (by decide)).1,
   (createAutoMocks_stub_for_discovered_unprovided envTrans [1] (some 0) 9 2
      (by decide) (by decide)).2.2 (by decide) 0 rfl⟩

/-- Updating a slot and reading it back. -/
theorem setProv_prov_self (w : World) (p : Nat) (m : String) (s : Slot) :
    (w.setProv p m s).prov p m = s := by
  simp [World.setProv]

/-- Updating a slot leaves every other slot unchanged. -/
theorem setProv_prov_off (w : World) (p : Nat) (m : String) (s : Slot)
    (p2 : Nat) (m2 : String) (h : ¬(p2 = p ∧ m2 = m)) :
    (w.setProv p m s).prov p2 m2 = w.prov p2 m2 := by
  simp [World.setProv, h]

/-- Updating a method slot does not touch module exports. -/
theorem setProv_modf (w : World) (p : Nat) (m : String) (s : Slot) :
    (w.setProv p m s).modf = w.modf := rfl

/-- Updating a method slot does not freeze or unfreeze anything. -/
theorem setProv_frozen (w : World) (p : Nat) (m : String) (s : Slot) :
    (w.setProv p m s).frozen = w.frozen := rfl

/-- Updating a module export and reading it back. -/
theorem setModf_modf_self (w : World) (mo fn : String) (v : ModSlotVal) :
    (w.setModf mo fn v).modf mo fn = v := by
  simp [World.setModf]

/-- Updating a module export leaves every other export unchanged. -/
theorem setModf_modf_off (w : World) (mo fn : String) (v : ModSlotVal)
    (mo2 fn2 : String) (h : ¬(mo2 = mo ∧ fn2 = fn)) :
    (w.setModf mo fn v).modf mo2 fn2 = w.modf mo2 fn2 := by
  simp [World.setModf, h]

/-- Updating a module export does not touch method slots. -/
theorem setModf_prov (w : World) (mo fn : String) (v : ModSlotVal) :
    (w.setModf mo fn v).prov = w.prov := rfl

/-- Updating a module export does not freeze or unfreeze anything. -/
theorem setModf_frozen (w : World) (mo fn : String) (v : ModSlotVal) :
    (w.setModf mo fn v).frozen = w.frozen := rfl

/-- Queuing a one-time behaviour never changes the remembered original. -/
theorem applyOnceSwitch_original (sp : SpyState) (spec : MockBehaviorSpec) :
    (applyOnceSwitch sp spec).original = sp.original := by
  cases spec <;> rfl

/-- Installing a steady default never changes the remembered original. -/
theorem applyDefaultSwitch_original (sp : SpyState) (spec : MockBehaviorSpec) :
    (applyDefaultSwitch sp spec).original = sp.original := by
  cases spec <;> rfl

/-- A whole once-chain never changes the remembered original. -/
theorem foldl_applyOnceSwitch_original (grp : List MockConfig) :
    ∀ sp : SpyState,
      (grp.foldl (fun sp mk => applyOnceSwitch sp mk.spec) sp).original = sp.original := by
  induction grp with
  | nil => intro sp; rfl
  | cons c tl ih =>
    intro sp
    rw [List.foldl_cons, ih, applyOnceSwitch_original]

/-- A whole self-spy once-chain never changes the remembered original. -/
theorem foldl_applyOnceSwitch_original_selfspy (grp : List SelfSpyConfig) :
    ∀ sp : SpyState,
      (grp.foldl (fun sp sc => applyOnceSwitch sp sc.spec) sp).original = sp.original := by
  induction grp with
  | nil => intro sp; rfl
  | cons c tl ih =>
    intro sp
    rw [List.foldl_cons, ih, applyOnceSwitch_original]

/-- `jest.spyOn` remembers the underlying original of the slot. -/
theorem spyOnSlot_original (s : Slot) : (spyOnSlot s).original = s.base := by
  cases s <;> rfl

/-- The handle of a group is determined by the configurations alone. -/
theorem applyGroup_fst (w : World) (mocks : List MockConfig) (k : String) :
    (applyGroup w mocks k).1 = handleOf mocks k := by
  unfold applyGroup handleOf
  cases groupFor mocks k <;> rfl

/-- Applying a group does not touch module exports. -/
theorem applyGroup_modf (w : World) (mocks : List MockConfig) (k : String) :
    (applyGroup w mocks k).2.modf = w.modf := by
  unfold applyGroup
  cases groupFor mocks k <;> rfl

/-- Applying a group does not freeze or unfreeze anything. -/
theorem applyGroup_frozen (w : World) (mocks : List MockConfig) (k : String) :
    (applyGroup w mocks k).2.frozen = w.frozen := by
  unfold applyGroup
  cases groupFor mocks k <;> rfl

/-- Applying a group touches only the slot behind its own handle. -/
theorem applyGroup_prov_off (w : World) (mocks : List MockConfig) (k : String)
    (p2 : Nat) (m2 : String) (h : (p2, m2) ≠ handleOf mocks k) :
    (applyGroup w mocks k).2.prov p2 m2 = w.prov p2 m2 := by
  unfold applyGroup
  unfold handleOf at h
  cases hg : groupFor mocks k with
  | nil => rfl
  | cons c tl =>
    rw [hg] at h
    simp only
    apply setProv_prov_off
    intro ⟨h1, h2⟩
    exact h (by rw [h1, h2])

/-- Applying a group preserves the underlying original of every slot. -/
theorem applyGroup_prov_base (w : World) (mocks : List MockConfig) (k : String)
    (p2 : Nat) (m2 : String) :
    ((applyGroup w mocks k).2.prov p2 m2).base = (w.prov p2 m2).base := by
  unfold applyGroup
  cases hg : groupFor mocks k with
  | nil => rfl
  | cons c tl =>
    simp only
    by_cases h : p2 = c.provider.pid ∧ m2 = c.method
    · obtain ⟨rfl, rfl⟩ := h
      rw [setProv_prov_self]
      show ((if (c :: tl).length > 1 then _ else _ : SpyState)).original = _
      split
      · rw [foldl_applyOnceSwitch_original, spyOnSlot_original]
      · rw [applyDefaultSwitch_original, spyOnSlot_original]
    · rw [setProv_prov_off _ _ _ _ _ _ h]

/-- The handles `applyMocks` returns: one per group key, in order. -/
theorem applyMocksGo_fst (mocks : List MockConfig) :
    ∀ (ks : List String) (w : World),
      (applyMocksGo w mocks ks).1 = ks.map (handleOf mocks) := by
  intro ks
  induction ks with
  | nil => intro w; rfl
  | cons k tl ih =>
    intro w
    simp only [applyMocksGo]
    rw [applyGroup_fst, ih, List.map_cons]

/-- `applyMocks` does not touch module exports. -/
theorem applyMocksGo_modf (mocks : List MockConfig) :
    ∀ (ks : List String) (w : World),
      (applyMocksGo w mocks ks).2.modf = w.modf := by
  intro ks
  induction ks with
  | nil => intro w; rfl
  | cons k tl ih =>
    intro w
    simp only [applyMocksGo]
    rw [ih, applyGroup_modf]

/-- `applyMocks` does not freeze or unfreeze anything. -/
theorem applyMocksGo_frozen (mocks : List MockConfig) :
    ∀ (ks : List String) (w : World),
      (applyMocksGo w mocks ks).2.frozen = w.frozen := by
  intro ks
  induction ks with
  | nil => intro w; rfl
  | cons k tl ih =>
    intro w
    simp only [applyMocksGo]
    rw [ih, applyGroup_frozen]

/-- `applyMocks` touches only the slots behind its handles. -/
theorem applyMocksGo_prov_off (mocks : List MockConfig) :
    ∀ (ks : List String) (w : World) (p2 : Nat) (m2 : String),
      (∀ k ∈ ks, (p2, m2) ≠ handleOf mocks k) →
      (applyMocksGo w mocks ks).2.prov p2 m2 = w.prov p2 m2 := by
  intro ks
  induction ks with
  | nil => intro w p2 m2 _; rfl
  | cons k tl ih =>
    intro w p2 m2 hoff
    simp only [applyMocksGo]
    rw [ih _ _ _ (fun k2 hk2 => hoff k2 (by simp [hk2])),
      applyGroup_prov_off _ _ _ _ _ (hoff k (by simp))]

/-- `applyMocks` preserves the underlying original of every slot. -/
theorem applyMocksGo_prov_base (mocks : List MockConfig) :
    ∀ (ks : List String) (w : World) (p2 : Nat) (m2 : String),
      ((applyMocksGo w mocks ks).2.prov p2 m2).base = (w.prov p2 m2).base := by
  intro ks
  induction ks with
  | nil => intro w p2 m2; rfl
  | cons k tl ih =>
    intro w p2 m2
    simp only [applyMocksGo]
    rw [ih, applyGroup_prov_base]

/-- The handle of a self-spy group is determined by the configurations. -/
theorem applySelfSpyGroup_fst (w : World) (cutPid : Nat)
    (spies : List SelfSpyConfig) (k : String) :
    (applySelfSpyGroup w cutPid spies k).1 = selfHandleOf cutPid spies k := by
  unfold applySelfSpyGroup selfHandleOf
  cases selfSpyGroupFor spies k <;> rfl

/-- Applying a self-spy group does not touch module exports. -/
theorem applySelfSpyGroup_modf (w : World) (cutPid : Nat)
    (spies : List SelfSpyConfig) (k : String) :
    (applySelfSpyGroup w cutPid spies k).2.modf = w.modf := by
  unfold applySelfSpyGroup
  cases selfSpyGroupFor spies k <;> rfl

/-- Applying a self-spy group does not freeze or unfreeze anything. -/
theorem applySelfSpyGroup_frozen (w : World) (cutPid : Nat)
    (spies : List SelfSpyConfig) (k : String) :
    (applySelfSpyGroup w cutPid spies k).2.frozen = w.frozen := by
  unfold applySelfSpyGroup
  cases selfSpyGroupFor spies k <;> rfl

/-- Applying a self-spy group touches only the slot behind its handle. -/
theorem applySelfSpyGroup_prov_off (w : World) (cutPid : Nat)
    (spies : List SelfSpyConfig) (k : String) (p2 : Nat) (m2 : String)
    (h : (p2, m2) ≠ selfHandleOf cutPid spies k) :
    (applySelfSpyGroup w cutPid spies k).2.prov p2 m2 = w.prov p2 m2 := by
  unfold applySelfSpyGroup
  unfold selfHandleOf at h
  cases hg : selfSpyGroupFor spies k with
  | nil => rfl
  | cons c tl =>
    rw [hg] at h
    simp only
    apply setProv_prov_off
    intro ⟨h1, h2⟩
    exact h (by rw [h1, h2])

/-- Applying a self-spy group preserves the underlying original of every
slot. -/
theorem applySelfSpyGroup_prov_base (w : World) (cutPid : Nat)
    (spies : List SelfSpyConfig) (k : String) (p2 : Nat) (m2 : String) :
    ((applySelfSpyGroup w cutPid spies k).2.prov p2 m2).base
      = (w.prov p2 m2).base := by
  unfold applySelfSpyGroup
  cases hg : selfSpyGroupFor spies k with
  | nil => rfl
  | cons c tl =>
    simp only
    by_cases h : p2 = cutPid ∧ m2 = c.method
    · obtain ⟨rfl, rfl⟩ := h
      rw [setProv_prov_self]
      show ((if (c :: tl).length > 1 then _ else _ : SpyState)).original = _
      split
      · rw [foldl_applyOnceSwitch_original_selfspy, spyOnSlot_original]
      · rw [applyDefaultSwitch_original, spyOnSlot_original]
    · rw [setProv_prov_off _ _ _ _ _ _ h]

/-- The handles `applySelfSpies` returns: one per group key, in order. -/
theorem applySelfSpiesGo_fst (cutPid : Nat) (spies : List SelfSpyConfig) :
    ∀ (ks : List String) (w : World),
      (applySelfSpiesGo w cutPid spies ks).1 = ks.map (selfHandleOf cutPid spies) := by
  intro ks
  induction ks with
  | nil => intro w; rfl
  | cons k tl ih =>
    intro w
    simp only [applySelfSpiesGo]
    rw [applySelfSpyGroup_fst, ih, List.map_cons]

/-- `applySelfSpies` does not touch module exports. -/
theorem applySelfSpiesGo_modf (cutPid : Nat) (spies : List SelfSpyConfig) :
    ∀ (ks : List String) (w : World),
      (applySelfSpiesGo w cutPid spies ks).2.modf = w.modf := by
  intro ks
  induction ks with
  | nil => intro w; rfl
  | cons k tl ih =>
    intro w
    simp only [applySelfSpiesGo]
    rw [ih, applySelfSpyGroup_modf]

/-- `applySelfSpies` does not freeze or unfreeze anything. -/
theorem applySelfSpiesGo_frozen (cutPid : Nat) (spies : List SelfSpyConfig) :
    ∀ (ks : List String) (w : World),
      (applySelfSpiesGo w cutPid spies ks).2.frozen = w.frozen := by
  intro ks
  induction ks with
  | nil => intro w; rfl
  | cons k tl ih =>
    intro w
    simp only [applySelfSpiesGo]
    rw [ih, applySelfSpyGroup_frozen]

/-- `applySelfSpies` touches only the slots behind its handles. -/
theorem applySelfSpiesGo_prov_off (cutPid : Nat) (spies : List SelfSpyConfig) :
    ∀ (ks : List String) (w : World) (p2 : Nat) (m2 : String),
      (∀ k ∈ ks, (p2, m2) ≠ selfHandleOf cutPid spies k) →
      (applySelfSpiesGo w cutPid spies ks).2.prov p2 m2 = w.prov p2 m2 := by
  intro ks
  induction ks with
  | nil => intro w p2 m2 _; rfl
  | cons k tl ih =>
    intro w p2 m2 hoff
    simp only [applySelfSpiesGo]
    rw [ih _ _ _ (fun k2 hk2 => hoff k2 (by simp [hk2])),
      applySelfSpyGroup_prov_off _ _ _ _ _ _ (hoff k (by simp))]

/-- `applySelfSpies` preserves the underlying original of every slot. -/
theorem applySelfSpiesGo_prov_base (cutPid : Nat) (spies : List SelfSpyConfig) :
    ∀ (ks : List String) (w : World) (p2 : Nat) (m2 : String),
      ((applySelfSpiesGo w cutPid spies ks).2.prov p2 m2).base
        = (w.prov p2 m2).base := by
  intro ks
  induction ks with
  | nil => intro w p2 m2; rfl
  | cons k tl ih =>
    intro w p2 m2
    simp only [applySelfSpiesGo]
    rw [ih, applySelfSpyGroup_prov_base]

/-- Applying module mocks does not touch method slots. -/
theorem applyModuleMocksGo_prov :
    ∀ (cfgs : List ModuleMockConfig) (w : World),
      (applyModuleMocksGo w cfgs).2.prov = w.prov := by
  intro cfgs
  induction cfgs with
  | nil => intro w; rfl
  | cons mk tl ih =>
    intro w
    simp only [applyModuleMocksGo]
    rw [ih]
    rfl

/-- Applying module mocks does not freeze or unfreeze anything. -/
theorem applyModuleMocksGo_frozen :
    ∀ (cfgs : List ModuleMockConfig) (w : World),
      (applyModuleMocksGo w cfgs).2.frozen = w.frozen := by
  intro cfgs
  induction cfgs with
  | nil => intro w; rfl
  | cons mk tl ih =>
    intro w
    simp only [applyModuleMocksGo]
    rw [ih]
    rfl

/-- Applying module mocks touches only the configured exports. -/
theorem applyModuleMocksGo_modf_off :
    ∀ (cfgs : List ModuleMockConfig) (w : World) (mo fn : String),
      (mo, fn) ∉ cfgs.map modKeyOf →
      (applyModuleMocksGo w cfgs).2.modf mo fn = w.modf mo fn := by
  intro cfgs
  induction cfgs with
  | nil => intro w mo fn _; rfl
  | cons mk tl ih =>
    intro w mo fn hoff
    have hk : (mo, fn) ≠ modKeyOf mk := by
      intro h
      exact hoff (by simp [h])
    simp only [applyModuleMocksGo]
    rw [ih _ _ _ (by intro h; exact hoff (by simp [h]))]
    apply setModf_modf_off
    intro ⟨h1, h2⟩
    exact hk (by simp [modKeyOf, h1, h2])

/-- With pairwise-distinct targets, each module restore closure captures
the export exactly as it was before the whole module apply phase. -/
theorem applyModuleMocksGo_captures :
    ∀ (cfgs : List ModuleMockConfig) (w : World),
      (cfgs.map modKeyOf).Nodup →
      (applyModuleMocksGo w cfgs).1
        = cfgs.map (fun mk =>
            ModRestoreFn.mk (modKeyOf mk) (w.modf mk.moduleName mk.method)) := by
  intro cfgs
  induction cfgs with
  | nil => intro w _; rfl
  | cons mk tl ih =>
    intro w hnd
    have hnd2 : (tl.map modKeyOf).Nodup := (List.nodup_cons.mp hnd).2
    have hhead : modKeyOf mk ∉ tl.map modKeyOf := (List.nodup_cons.mp hnd).1
    simp only [applyModuleMocksGo]
    rw [ih _ hnd2, List.map_cons]
    refine congrArg _ ?_
    apply List.map_congr_left
    intro mk2 hmk2
    have hne : ¬(mk2.moduleName = mk.moduleName ∧ mk2.method = mk.method) := by
      intro ⟨h1, h2⟩
      exact hhead (by
        refine List.mem_map.mpr ⟨mk2, hmk2, ?_⟩
        simp [modKeyOf, h1, h2])
    rw [setModf_modf_off _ _ _ _ _ _ hne]

/-- A restored handle holds the plain underlying original afterwards. -/
theorem mockRestoreStep_prov_at (w : World) (hd : Nat × String) :
    (mockRestoreStep w hd).prov hd.1 hd.2 = .plainSlot ((w.prov hd.1 hd.2).base) := by
  unfold mockRestoreStep
  cases hs : w.prov hd.1 hd.2 with
  | plainSlot b => rw [hs]; rfl
  | spiedSlot s => rw [setProv_prov_self]; rfl

/-- Restoring one handle leaves every other slot unchanged. -/
theorem mockRestoreStep_prov_off (w : World) (hd : Nat × String)
    (p2 : Nat) (m2 : String) (h : (p2, m2) ≠ hd) :
    (mockRestoreStep w hd).prov p2 m2 = w.prov p2 m2 := by
  unfold mockRestoreStep
  cases w.prov hd.1 hd.2 with
  | plainSlot b => rfl
  | spiedSlot s =>
    apply setProv_prov_off
    intro ⟨h1, h2⟩
    exact h (by rw [h1, h2])

/-- Restoring one handle preserves the underlying original everywhere. -/
theorem mockRestoreStep_prov_base (w : World) (hd : Nat × String)
    (p2 : Nat) (m2 : String) :
    ((mockRestoreStep w hd).prov p2 m2).base = (w.prov p2 m2).base := by
  by_cases h : (p2, m2) = hd
  · subst h
    rw [mockRestoreStep_prov_at]
    rfl
  · rw [mockRestoreStep_prov_off _ _ _ _ h]

/-- Restoring one handle does not touch module exports. -/
theorem mockRestoreStep_modf (w : World) (hd : Nat × String) :
    (mockRestoreStep w hd).modf = w.modf := by
  unfold mockRestoreStep
  cases w.prov hd.1 hd.2 <;> rfl

/-- Restoring a batch does not freeze or unfreeze anything. -/
theorem restoreRun_frozen :
    ∀ (hs : List (Nat × String)) (w : World),
      (restoreRun hs w).frozen = w.frozen := by
  intro hs
  induction hs with
  | nil => intro w; rfl
  | cons hd tl ih =>
    intro w
    show (restoreRun tl (mockRestoreStep w hd)).frozen = w.frozen
    rw [ih, mockRestoreStep_frozen]

/-- Restoring a batch does not touch module exports. -/
theorem restoreRun_modf :
    ∀ (hs : List (Nat × String)) (w : World),
      (restoreRun hs w).modf = w.modf := by
  intro hs
  induction hs with
  | nil => intro w; rfl
  | cons hd tl ih =>
    intro w
    show (restoreRun tl (mockRestoreStep w hd)).modf = w.modf
    rw [ih, mockRestoreStep_modf]

/-- Restoring a batch leaves slots outside the batch unchanged. -/
theorem restoreRun_prov_off :
    ∀ (hs : List (Nat × String)) (w : World) (p2 : Nat) (m2 : String),
      (p2, m2) ∉ hs →
      (restoreRun hs w).prov p2 m2 = w.prov p2 m2 := by
  intro hs
  induction hs with
  | nil => intro w p2 m2 _; rfl
  | cons hd tl ih =>
    intro w p2 m2 hoff
    show (restoreRun tl (mockRestoreStep w hd)).prov p2 m2 = w.prov p2 m2
    rw [ih _ _ _ (by intro h; exact hoff (by simp [h])),
      mockRestoreStep_prov_off _ _ _ _ (by intro h; exact hoff (by simp [h]))]

/-- Every handle in a restored batch holds its plain underlying original
afterwards. -/
theorem restoreRun_prov_mem :
    ∀ (hs : List (Nat × String)) (w : World) (p2 : Nat) (m2 : String),
      (p2, m2) ∈ hs →
      (restoreRun hs w).prov p2 m2 = .plainSlot ((w.prov p2 m2).base) := by
  intro hs
  induction hs with
  | nil => intro w p2 m2 h; simp at h
  | cons hd tl ih =>
    intro w p2 m2 hmem
    show (restoreRun tl (mockRestoreStep w hd)).prov p2 m2 = _
    by_cases htl : (p2, m2) ∈ tl
    · rw [ih _ _ _ htl, mockRestoreStep_prov_base]
    · have hh : (p2, m2) = hd := by
        rcases List.mem_cons.mp hmem with h | h
        · exact h
        · exact absurd h htl
      subst hh
      rw [restoreRun_prov_off _ _ _ _ htl, mockRestoreStep_prov_at]

/-- When nothing is frozen, `restoreMocks` succeeds and performs exactly
the pure batch restore. -/
theorem restoreMocksE_no_frozen :
    ∀ (hs : List (Nat × String)) (w : World),
      (∀ p m, w.frozen p m = false) →
      restoreMocksE hs w = .ok (restoreRun hs w) := by
  intro hs
  induction hs with
  | nil => intro w _; rfl
  | cons hd tl ih =>
    intro w hfro
    show (match mockRestoreE w hd with
      | .ok w1 => restoreMocksE tl w1
      | .error e => .error e) = _
    rw [mockRestoreE, if_neg (by rw [hfro]; exact Bool.false_ne_true)]
    show restoreMocksE tl (mockRestoreStep w hd) = _
    rw [ih _ (by intro p m; rw [mockRestoreStep_frozen]; exact hfro p m)]
    rfl

/-- A module restore closure ends with its captured reference written
over the export (regardless of what stood there). -/
theorem moduleRestoreStep_modf_at (w : World) (r : ModRestoreFn) :
    (moduleRestoreStep w r).modf r.key.1 r.key.2 = r.captured := by
  unfold moduleRestoreStep
  cases w.modf r.key.1 r.key.2 <;> rw [setModf_modf_self]

/-- A module restore closure leaves every other export unchanged. -/
theorem moduleRestoreStep_modf_off (w : World) (r : ModRestoreFn)
    (mo fn : String) (h : ¬(mo = r.key.1 ∧ fn = r.key.2)) :
    (moduleRestoreStep w r).modf mo fn = w.modf mo fn := by
  unfold moduleRestoreStep
  cases w.modf r.key.1 r.key.2 with
  | originalFn b => rw [setModf_modf_off _ _ _ _ _ _ h]
  | mockFn s => rw [setModf_modf_off _ _ _ _ _ _ h, setModf_modf_off _ _ _ _ _ _ h]

/-- Module restoration does not touch method slots. -/
theorem moduleRestoreStep_prov (w : World) (r : ModRestoreFn) :
    (moduleRestoreStep w r).prov = w.prov := by
  unfold moduleRestoreStep
  cases w.modf r.key.1 r.key.2 <;> rfl

/-- Module restoration does not freeze or unfreeze anything. -/
theorem moduleRestoreStep_frozen (w : World) (r : ModRestoreFn) :
    (moduleRestoreStep w r).frozen = w.frozen := by
  unfold moduleRestoreStep
  cases w.modf r.key.1 r.key.2 <;> rfl

/-- Restoring the module batch leaves untargeted exports unchanged. -/
theorem restoreModuleMocksE_modf_off :
    ∀ (rs : List ModRestoreFn) (w : World) (mo fn : String),
      (mo, fn) ∉ rs.map ModRestoreFn.key →
      (restoreModuleMocksE rs w).modf mo fn = w.modf mo fn := by
  intro rs
  induction rs with
  | nil => intro w mo fn _; rfl
  | cons r tl ih =>
    intro w mo fn hoff
    show (restoreModuleMocksE tl (moduleRestoreStep w r)).modf mo fn = _
    rw [ih _ _ _ (by intro h; exact hoff (by simp [h]))]
    apply moduleRestoreStep_modf_off
    intro ⟨h1, h2⟩
    exact hoff (by
      refine List.mem_map.mpr ⟨r, by simp, ?_⟩
      rw [h1, h2])

/-- With pairwise-distinct targets, each module restore closure leaves
its captured reference as the final content of its export. -/
theorem restoreModuleMocksE_modf_mem :
    ∀ (rs : List ModRestoreFn) (w : World) (r : ModRestoreFn),
      (rs.map ModRestoreFn.key).Nodup → r ∈ rs →
      (restoreModuleMocksE rs w).modf r.key.1 r.key.2 = r.captured := by
  intro rs
  induction rs with
  | nil => intro w r _ h; simp at h
  | cons r0 tl ih =>
    intro w r hnd hmem
    have hnd2 : (tl.map ModRestoreFn.key).Nodup := (List.nodup_cons.mp hnd).2
    have hhead : r0.key ∉ tl.map ModRestoreFn.key := (List.nodup_cons.mp hnd).1
    show (restoreModuleMocksE tl (moduleRestoreStep w r0)).modf r.key.1 r.key.2 = _
    rcases List.mem_cons.mp hmem with rfl | htl
    · have hoff : r.key ∉ tl.map ModRestoreFn.key := hhead
      rw [restoreModuleMocksE_modf_off tl _ r.key.1 r.key.2 (by simpa using hoff)]
      exact moduleRestoreStep_modf_at w r
    · exact ih _ r hnd2 htl

/-- Restoring the module batch does not touch method slots. -/
theorem restoreModuleMocksE_prov :
    ∀ (rs : List ModRestoreFn) (w : World),
      (restoreModuleMocksE rs w).prov = w.prov := by
  intro rs
  induction rs with
  | nil => intro w; rfl
  | cons r tl ih =>
    intro w
    show (restoreModuleMocksE tl (moduleRestoreStep w r)).prov = w.prov
    rw [ih, moduleRestoreStep_prov]

/-- Restoring the module batch does not freeze or unfreeze anything. -/
theorem restoreModuleMocksE_frozen :
    ∀ (rs : List ModRestoreFn) (w : World),
      (restoreModuleMocksE rs w).frozen = w.frozen := by
  intro rs
  induction rs with
  | nil => intro w; rfl
  | cons r tl ih =>
    intro w
    show (restoreModuleMocksE tl (moduleRestoreStep w r)).frozen = w.frozen
    rw [ih, moduleRestoreStep_frozen]

/-- The frame relation on slots is reflexive. -/
theorem slotFrame_refl (s : Slot) : SlotFrame s s := by
  cases s with
  | plainSlot b => exact rfl
  | spiedSlot sp => exact ⟨rfl, rfl⟩

/-- The frame relation on module exports is reflexive. -/
theorem modFrame_refl (v : ModSlotVal) : ModFrame v v := by
  cases v with
  | originalFn b => exact rfl
  | mockFn sp => exact ⟨rfl, rfl⟩

/-- The frame relation preserves the underlying original of a slot. -/
theorem slotFrame_base (s1 s2 : Slot) (h : SlotFrame s1 s2) :
    s2.base = s1.base := by
  cases s1 <;> cases s2 <;> simp [SlotFrame] at h <;> simp [Slot.base, h]

/-- A plain slot stays exactly plain under the frame relation. -/
theorem slotFrame_plain (b : Behavior) (s2 : Slot)
    (h : SlotFrame (.plainSlot b) s2) : s2 = .plainSlot b := by
  cases s2 with
  | plainSlot b2 => exact congrArg Slot.plainSlot h.symm
  | spiedSlot sp => exact absurd h (by simp [SlotFrame])

/-- An original module export stays exactly original under the frame
relation. -/
theorem modFrame_original (b : Behavior) (v2 : ModSlotVal)
    (h : ModFrame (.originalFn b) v2) : v2 = .originalFn b := by
  cases v2 with
  | originalFn b2 => exact congrArg ModSlotVal.originalFn h.symm
  | mockFn sp => exact absurd h (by simp [ModFrame])

/-- `restoreSpies` delegates to the same `forEach`-over-`mockRestore`
shape as `restoreMocks`. -/
theorem restoreSpiesE_eq : restoreSpiesE = restoreMocksE := rfl

/-- The final world of `executeCase` when both fallible restore batches
succeed. -/
theorem executeCase_final_world (f : World → CallResult × World) (tc : TestCase)
    (cutPid : Nat) (w : World) (w5' w7' : World)
    (h1 : restoreMocksE (applyPhase tc cutPid w).1
        (caseBody f tc.expectation (applyPhase tc cutPid w).2.2.2).2 = .ok w5')
    (h2 : restoreSpiesE (applyPhase tc cutPid w).2.2.1
        (restoreModuleMocksE (applyPhase tc cutPid w).2.1 w5') = .ok w7') :
    (executeCase f tc cutPid w).2 = w7' := by
  unfold executeCase
  dsimp only
  rw [h1]
  dsimp only
  rw [h2]

/-- C3 amended: starting from a clean pre-case world (no leftover spies,
no frozen properties), for any method body that only invokes methods and
module functions, and any case whose module mock configurations target
pairwise-distinct (module, function) pairs, `executeCase` leaves every
instance method slot and every module export exactly as it found them —
collaborator mocks, self-spies and module mocks (including the module's
original function reference) are all written back — whatever the
expectation did (pass, mismatch, throw, or the `TypeError` of a missing
expectation); and the apply phase replaces nothing beyond the targets
named in the configurations.  (When two module mock configurations share
one target, the write-back uses a stale capture and the export is NOT
restored — see the counterexample.) -/
theorem executeCase_restores_pre_case_world
    (f : World → CallResult × World) (tc : TestCase) (cutPid : Nat) (w : World)
    (hf : FrameResp f) (hclean : CleanWorld w)
    (hkeys : (tc.moduleMocks.map modKeyOf).Nodup) :
    (executeCase f tc cutPid w).2.prov = w.prov
    ∧ (executeCase f tc cutPid w).2.modf = w.modf
    ∧ (∀ p m, (p, m) ∉ (applyPhase tc cutPid w).1 →
        (p, m) ∉ (applyPhase tc cutPid w).2.2.1 →
        ((applyPhase tc cutPid w).2.2.2).prov p m = w.prov p m)
    ∧ (∀ mo fn, (mo, fn) ∉ tc.moduleMocks.map modKeyOf →
        ((applyPhase tc cutPid w).2.2.2).modf mo fn = w.modf mo fn) := by
  obtain ⟨hcleanP, hcleanM, hcleanF⟩ := hclean
  -- the three apply stages and the body
  have hA : (applyPhase tc cutPid w).1 = (applyMocks w tc.mocks).1 := rfl
  have hM1 : (applyPhase tc cutPid w).2.1
      = (applyModuleMocksGo (applyMocks w tc.mocks).2 tc.moduleMocks).1 := rfl
  have hS1 : (applyPhase tc cutPid w).2.2.1
      = (applySelfSpies (applyModuleMocksGo (applyMocks w tc.mocks).2 tc.moduleMocks).2
          cutPid tc.spies).1 := rfl
  have hS2 : (applyPhase tc cutPid w).2.2.2
      = (applySelfSpies (applyModuleMocksGo (applyMocks w tc.mocks).2 tc.moduleMocks).2
          cutPid tc.spies).2 := rfl
  -- frozen flags never change before the restores
  have hfroA : (applyMocks w tc.mocks).2.frozen = w.frozen :=
    applyMocksGo_frozen tc.mocks (groupKeys tc.mocks) w
  have hfroM : (applyModuleMocksGo (applyMocks w tc.mocks).2 tc.moduleMocks).2.frozen
      = (applyMocks w tc.mocks).2.frozen :=
    applyModuleMocksGo_frozen tc.moduleMocks (applyMocks w tc.mocks).2
  have hfroS : ((applyPhase tc cutPid w).2.2.2).frozen = w.frozen := by
    rw [hS2]
    rw [show ((applySelfSpies (applyModuleMocksGo (applyMocks w tc.mocks).2
        tc.moduleMocks).2 cutPid tc.spies).2).frozen
      = ((applyModuleMocksGo (applyMocks w tc.mocks).2 tc.moduleMocks).2).frozen from
      applySelfSpiesGo_frozen cutPid tc.spies (selfSpyGroupKeys tc.spies) _]
    rw [hfroM, hfroA]
  -- how the body may change the world: identity or one `f` step
  have hBcase : (caseBody f tc.expectation ((applyPhase tc cutPid w).2.2.2)).2
        = (applyPhase tc cutPid w).2.2.2
      ∨ (caseBody f tc.expectation ((applyPhase tc cutPid w).2.2.2)).2
        = (f ((applyPhase tc cutPid w).2.2.2)).2 := by
    cases tc.expectation with
    | none => exact Or.inl rfl
    | some e => cases e <;> exact Or.inr rfl
  have hframeP : ∀ p m, SlotFrame (((applyPhase tc cutPid w).2.2.2).prov p m)
      ((caseBody f tc.expectation ((applyPhase tc cutPid w).2.2.2)).2.prov p m) := by
    rcases hBcase with h | h <;> rw [h]
    · intro p m; exact slotFrame_refl _
    · intro p m; exact ((hf _).1 p m)
  have hframeM : ∀ mo fn, ModFrame (((applyPhase tc cutPid w).2.2.2).modf mo fn)
      ((caseBody f tc.expectation ((applyPhase tc cutPid w).2.2.2)).2.modf mo fn) := by
    rcases hBcase with h | h <;> rw [h]
    · intro mo fn; exact modFrame_refl _
    · intro mo fn; exact ((hf _).2.1 mo fn)
  have hframeF : (caseBody f tc.expectation ((applyPhase tc cutPid w).2.2.2)).2.frozen
      = ((applyPhase tc cutPid w).2.2.2).frozen := by
    rcases hBcase with h | h <;> rw [h]
    · exact (hf _).2.2
  have hfroB : ∀ p m,
      (caseBody f tc.expectation ((applyPhase tc cutPid w).2.2.2)).2.frozen p m = false := by
    intro p m
    rw [hframeF, hfroS]
    exact hcleanF p m
  -- bases of instance slots survive the applies and the body
  have hbaseS : ∀ p m, (((applyPhase tc cutPid w).2.2.2).prov p m).base
      = (w.prov p m).base := by
    intro p m
    rw [hS2]
    rw [show ((applySelfSpies (applyModuleMocksGo (applyMocks w tc.mocks).2
        tc.moduleMocks).2 cutPid tc.spies).2.prov p m).base
      = (((applyModuleMocksGo (applyMocks w tc.mocks).2 tc.moduleMocks).2).prov p m).base from
      applySelfSpiesGo_prov_base cutPid tc.spies (selfSpyGroupKeys tc.spies) _ p m]
    rw [applyModuleMocksGo_prov tc.moduleMocks (applyMocks w tc.mocks).2]
    exact applyMocksGo_prov_base tc.mocks (groupKeys tc.mocks) w p m
  have hbaseB : ∀ p m,
      ((caseBody f tc.expectation ((applyPhase tc cutPid w).2.2.2)).2.prov p m).base
        = (w.prov p m).base := by
    intro p m
    rw [slotFrame_base _ _ (hframeP p m)]
    exact hbaseS p m
  -- untargeted instance slots survive exactly
  have hoffS : ∀ p m, (p, m) ∉ (applyPhase tc cutPid w).1 →
      (p, m) ∉ (applyPhase tc cutPid w).2.2.1 →
      ((applyPhase tc cutPid w).2.2.2).prov p m = w.prov p m := by
    intro p m h1 h2
    rw [hS2]
    rw [show (applySelfSpies (applyModuleMocksGo (applyMocks w tc.mocks).2
        tc.moduleMocks).2 cutPid tc.spies).2.prov p m
      = ((applyModuleMocksGo (applyMocks w tc.mocks).2 tc.moduleMocks).2).prov p m from
      applySelfSpiesGo_prov_off cutPid tc.spies (selfSpyGroupKeys tc.spies) _ p m
        (by
          intro k hk heq
          apply h2
          rw [hS1]
          rw [show (applySelfSpies (applyModuleMocksGo (applyMocks w tc.mocks).2
              tc.moduleMocks).2 cutPid tc.spies).1
            = (selfSpyGroupKeys tc.spies).map (selfHandleOf cutPid tc.spies) from
            applySelfSpiesGo_fst cutPid tc.spies (selfSpyGroupKeys tc.spies) _]
          exact List.mem_map.mpr ⟨k, hk, heq.symm⟩)]
    rw [applyModuleMocksGo_prov tc.moduleMocks (applyMocks w tc.mocks).2]
    apply applyMocksGo_prov_off
    intro k hk heq
    apply h1
    rw [hA]
    rw [show (applyMocks w tc.mocks).1
      = (groupKeys tc.mocks).map (handleOf tc.mocks) from
      applyMocksGo_fst tc.mocks (groupKeys tc.mocks) w]
    exact List.mem_map.mpr ⟨k, hk, heq.symm⟩
  -- untargeted module exports survive the applies and the body exactly
  have hmodfSoff : ∀ mo fn, (mo, fn) ∉ tc.moduleMocks.map modKeyOf →
      ((applyPhase tc cutPid w).2.2.2).modf mo fn = w.modf mo fn := by
    intro mo fn h
    rw [hS2]
    rw [show (applySelfSpies (applyModuleMocksGo (applyMocks w tc.mocks).2
        tc.moduleMocks).2 cutPid tc.spies).2.modf
      = ((applyModuleMocksGo (applyMocks w tc.mocks).2 tc.moduleMocks).2).modf from
      applySelfSpiesGo_modf cutPid tc.spies (selfSpyGroupKeys tc.spies) _]
    rw [applyModuleMocksGo_modf_off tc.moduleMocks _ mo fn h]
    exact congrFun (congrFun (applyMocksGo_modf tc.mocks (groupKeys tc.mocks) w) mo) fn
  have hmodfB : ∀ mo fn, (mo, fn) ∉ tc.moduleMocks.map modKeyOf →
      (caseBody f tc.expectation ((applyPhase tc cutPid w).2.2.2)).2.modf mo fn
        = w.modf mo fn := by
    intro mo fn h
    obtain ⟨b, hb⟩ := hcleanM mo fn
    have h3 : ((applyPhase tc cutPid w).2.2.2).modf mo fn = .originalFn b := by
      rw [hmodfSoff mo fn h, hb]
    have hfr := hframeM mo fn
    rw [h3] at hfr
    rw [modFrame_original b _ hfr, hb]
  -- the captured module restore closures
  have hRcap : (applyPhase tc cutPid w).2.1
      = tc.moduleMocks.map (fun mk =>
          ModRestoreFn.mk (modKeyOf mk) (w.modf mk.moduleName mk.method)) := by
    rw [hM1, applyModuleMocksGo_captures tc.moduleMocks (applyMocks w tc.mocks).2 hkeys]
    apply List.map_congr_left
    intro mk _
    rw [show (applyMocks w tc.mocks).2.modf = w.modf from
      applyMocksGo_modf tc.mocks (groupKeys tc.mocks) w]
  have hRkeys : ((applyPhase tc cutPid w).2.1).map ModRestoreFn.key
      = tc.moduleMocks.map modKeyOf := by
    rw [hRcap, List.map_map]
    rfl
  -- both fallible restore batches succeed
  have hres1 : restoreMocksE (applyPhase tc cutPid w).1
      (caseBody f tc.expectation ((applyPhase tc cutPid w).2.2.2)).2
      = .ok (restoreRun (applyPhase tc cutPid w).1
          (caseBody f tc.expectation ((applyPhase tc cutPid w).2.2.2)).2) :=
    restoreMocksE_no_frozen _ _ hfroB
  have hfro6 : ∀ p m, (restoreModuleMocksE (applyPhase tc cutPid w).2.1
      (restoreRun (applyPhase tc cutPid w).1
        (caseBody f tc.expectation ((applyPhase tc cutPid w).2.2.2)).2)).frozen p m
      = false := by
    intro p m
    rw [restoreModuleMocksE_frozen, restoreRun_frozen]
    exact hfroB p m
  have hres2 : restoreSpiesE (applyPhase tc cutPid w).2.2.1
      (restoreModuleMocksE (applyPhase tc cutPid w).2.1
        (restoreRun (applyPhase tc cutPid w).1
          (caseBody f tc.expectation ((applyPhase tc cutPid w).2.2.2)).2))
      = .ok (restoreRun (applyPhase tc cutPid w).2.2.1
          (restoreModuleMocksE (applyPhase tc cutPid w).2.1
            (restoreRun (applyPhase tc cutPid w).1
              (caseBody f tc.expectation ((applyPhase tc cutPid w).2.2.2)).2))) := by
    rw [restoreSpiesE_eq]
    exact restoreMocksE_no_frozen _ _ hfro6
  have hfin := executeCase_final_world f tc cutPid w _ _ hres1 hres2
  refine ⟨?_, ?_, hoffS, hmodfSoff⟩
  · -- every instance method slot is back to its pre-case state
    funext p m
    rw [hfin]
    obtain ⟨b, hb⟩ := hcleanP p m
    have hbase : ((caseBody f tc.expectation
        ((applyPhase tc cutPid w).2.2.2)).2.prov p m).base = b := by
      rw [hbaseB p m, hb]
      rfl
    by_cases hm2 : (p, m) ∈ (applyPhase tc cutPid w).2.2.1
    · rw [restoreRun_prov_mem _ _ _ _ hm2, restoreModuleMocksE_prov]
      by_cases hm1 : (p, m) ∈ (applyPhase tc cutPid w).1
      · rw [restoreRun_prov_mem _ _ _ _ hm1, hbase, hb]
        rfl
      · rw [restoreRun_prov_off _ _ _ _ hm1, hbase, hb]
    · rw [restoreRun_prov_off _ _ _ _ hm2, restoreModuleMocksE_prov]
      by_cases hm1 : (p, m) ∈ (applyPhase tc cutPid w).1
      · rw [restoreRun_prov_mem _ _ _ _ hm1, hbase, hb]
      · rw [restoreRun_prov_off _ _ _ _ hm1]
        have hplain : ((applyPhase tc cutPid w).2.2.2).prov p m = .plainSlot b := by
          rw [hoffS p m hm1 hm2, hb]
        have hfr := hframeP p m
        rw [hplain] at hfr
        rw [slotFrame_plain b _ hfr, hb]
  · -- every module export is back to its pre-case reference
    funext mo fn
    rw [hfin, restoreRun_modf]
    by_cases hk : (mo, fn) ∈ tc.moduleMocks.map modKeyOf
    · obtain ⟨mk, hmk, hkey⟩ := List.mem_map.mp hk
      have hrmem : ModRestoreFn.mk (mo, fn) (w.modf mo fn)
          ∈ (applyPhase tc cutPid w).2.1 := by
        rw [hRcap]
        refine List.mem_map.mpr ⟨mk, hmk, ?_⟩
        rw [hkey]
        have : mk.moduleName = mo ∧ mk.method = fn := by
          have h1 := congrArg Prod.fst hkey
          have h2 := congrArg Prod.snd hkey
          exact ⟨h1, h2⟩
        rw [this.1, this.2]
      have := restoreModuleMocksE_modf_mem (applyPhase tc cutPid w).2.1
        (restoreRun (applyPhase tc cutPid w).1
          (caseBody f tc.expectation ((applyPhase tc cutPid w).2.2.2)).2)
        (ModRestoreFn.mk (mo, fn) (w.modf mo fn))
        (by rw [hRkeys]; exact hkeys) hrmem
      exact this
    · rw [restoreModuleMocksE_modf_off _ _ _ _ (by rw [hRkeys]; exact hk),
        restoreRun_modf]
      exact hmodfB mo fn hk

/-- C3 amended, witness: a case with one collaborator mock, one module
mock and one self-spy on distinct targets, run from the clean world,
leaves every method slot and module export exactly as before. -/
theorem executeCase_restores_pre_case_world_witness :
    (executeCase (fun w => (.ret (.num 5), w)) tcFull 9 w0).2.prov = w0.prov
    ∧ (executeCase (fun w => (.ret (.num 5), w)) tcFull 9 w0).2.modf = w0.modf :=
  ⟨(executeCase_restores_pre_case_world (fun w => (.ret (.num 5), w)) tcFull 9 w0
      (fun _ => ⟨fun _ _ => slotFrame_refl _, fun _ _ => modFrame_refl _, rfl⟩)
      ⟨fun _ _ => ⟨.retValue (.num 99), rfl⟩,
       fun _ _ => ⟨.retValue (.num 7), rfl⟩,
       fun _ _ => rfl⟩
      (by decide)).1,
   (executeCase_restores_pre_case_world (fun w => (.ret (.num 5), w)) tcFull 9 w0
      (fun _ => ⟨fun _ _ => slotFrame_refl _, fun _ _ => modFrame_refl _, rfl⟩)
      ⟨fun _ _ => ⟨.retValue (.num 99), rfl⟩,
       fun _ _ => ⟨.retValue (.num 7), rfl⟩,
       fun _ _ => rfl⟩
      (by decide)).2.1⟩
